import Mathlib

/-! RubberbandModel (src/core/rubberbandmodel.cpp)

A shallow embedding of the vertex-editing model of QField. The model object is
a record of its member variables; every member function that mutates the model
is a function from the old record to the new record together with the list of
signals it emits, in emission order. Qt container accesses that assert on an
out-of-range index (`QVector::at`, `insert`, `replace`, `remove`) are fallible:
a call that runs into one has no outcome (`none`).

C++ `int` is embedded as `Int`; vector sizes are far below `2^31`, so no
arithmetic here wraps. A `double` is embedded as `Dbl`: the model only copies
and compares coordinates and tests a measure for NaN.
-/

namespace QField

/-! ## Values of the QGIS library used by the model -/

/-- A double precision value: not-a-number, or a number. -/
inductive Dbl where
  | nan : Dbl
  | num (v : Int) : Dbl
  deriving DecidableEq, Repr

/-- The test `std::isnan`. -/
def Dbl.isnan : Dbl → Bool
  | Dbl.nan => true
  | Dbl.num _ => false

/-- The class `QgsPoint`: X and Y, optional Z and M, and the two presence flags that
its WKB type encodes (`QgsWkbTypes::hasZ`, `QgsWkbTypes::hasM`). A component that is
absent holds NaN, as in QGIS. `QgsPoint::operator==` is read as equality of these
records. -/
structure QgsPoint where
  x : Dbl
  y : Dbl
  z : Dbl
  m : Dbl
  hasZ : Bool
  hasM : Bool
  deriving DecidableEq, Repr

/-- The default constructed point `QgsPoint()`: the origin, without Z and M. -/
def QgsPoint.origin : QgsPoint :=
  { x := Dbl.num 0, y := Dbl.num 0, z := Dbl.nan, m := Dbl.nan, hasZ := false, hasM := false }

/-- A plain 2D point, for examples. -/
def QgsPoint.xy (a b : Int) : QgsPoint :=
  { x := Dbl.num a, y := Dbl.num b, z := Dbl.nan, m := Dbl.nan, hasZ := false, hasM := false }

/-- The member `QgsPoint::addMValue`: adds the M dimension with the given value; a
point that already has M is left as it is. -/
def QgsPoint.addMValue (p : QgsPoint) (mValue : Dbl) : QgsPoint :=
  if p.hasM then p else { p with hasM := true, m := mValue }

/-- The enumeration `QgsWkbTypes::GeometryType`. -/
inductive GeometryType where
  | PointGeometry
  | LineGeometry
  | PolygonGeometry
  | UnknownGeometry
  | NullGeometry
  deriving DecidableEq, Repr

/-- What the model reads of a `QgsVectorLayer` through its pointer: the identity of the
layer object, its geometry type, and whether its WKB type has M. Comparing two layer
pointers is comparing these records. -/
structure QgsVectorLayer where
  id : Nat
  geometryType : GeometryType
  wkbHasM : Bool
  deriving DecidableEq, Repr

/-- A coordinate reference system, identified by a number. -/
abbrev Crs := Nat

/-! ## Signals -/

/-- The signals of `RubberbandModel`, with their arguments. -/
inductive Event where
  | vertexChanged (index : Int)
  | verticesInserted (index count : Int)
  | verticesRemoved (index count : Int)
  | vertexCountChanged
  | currentCoordinateIndexChanged
  | currentCoordinateChanged
  | geometryTypeChanged
  | crsChanged
  | vectorLayerChanged
  | frozenChanged
  deriving DecidableEq, Repr

/-! ## Qt vector primitives -/

/-- The call `QVector::at(i)`: defined for `0 <= i < size`. -/
def qAt (l : List QgsPoint) (i : Int) : Option QgsPoint :=
  if 0 ≤ i then l.get? i.toNat else none

/-- The call `QVector::insert(i, value)`: defined for `0 <= i <= size`. -/
def qInsert (l : List QgsPoint) (i : Int) (value : QgsPoint) : Option (List QgsPoint) :=
  if 0 ≤ i ∧ i ≤ (l.length : Int) then some (l.take i.toNat ++ value :: l.drop i.toNat) else none

/-- The call `QVector::replace(i, value)`: defined for `0 <= i < size`. -/
def qReplace (l : List QgsPoint) (i : Int) (value : QgsPoint) : Option (List QgsPoint) :=
  if 0 ≤ i ∧ i < (l.length : Int) then some (l.set i.toNat value) else none

/-- The call `QVector::remove(i, count)`: defined for `0 <= i`, `0 <= count` and
`i + count <= size`; erases the positions `i .. i + count - 1`. -/
def qRemove (l : List QgsPoint) (i count : Int) : Option (List QgsPoint) :=
  if 0 ≤ i ∧ 0 ≤ count ∧ i + count ≤ (l.length : Int) then
    some (l.take i.toNat ++ l.drop (i + count).toNat)
  else none

/-! ## The model -/

/-- The member variables of `RubberbandModel`. -/
structure RubberbandModel where
  mPointList : List QgsPoint
  mCurrentCoordinateIndex : Int
  mGeometryType : GeometryType
  mCrs : Crs
  mLayer : Option QgsVectorLayer
  mFrozen : Bool
  mCurrentPositionTimestamp : Nat
  deriving DecidableEq, Repr

/-- The outcome of a member function: the model after the call and the signals emitted,
or nothing when the call ran into an out-of-range container access. -/
abbrev Outcome := Option (RubberbandModel × List Event)

/-- Sequencing of two calls: the second runs on the model the first left, and the
signals are concatenated. -/
def Outcome.andThen (r : Outcome) (f : RubberbandModel → Outcome) : Outcome :=
  match r with
  | none => none
  | some (s, es) =>
    match f s with
    | none => none
    | some (t, fs) => some (t, es ++ fs)

namespace RubberbandModel

/-- The constructor `RubberbandModel::RubberbandModel`: one default point, index 0, line
geometry, no layer. `crs` is the default constructed reference system; `mFrozen` and
the timestamp take their in-class defaults. -/
def fresh (crs : Crs) : RubberbandModel :=
  { mPointList := [QgsPoint.origin]
    mCurrentCoordinateIndex := 0
    mGeometryType := GeometryType.LineGeometry
    mCrs := crs
    mLayer := none
    mFrozen := false
    mCurrentPositionTimestamp := 0 }

/-- The getter `vertexCount`. -/
def vertexCount (s : RubberbandModel) : Int := s.mPointList.length

/-- The getter `isEmpty`. -/
def isEmpty (s : RubberbandModel) : Bool := s.mPointList.isEmpty

/-- The getter `currentCoordinateIndex`. -/
def currentCoordinateIndex (s : RubberbandModel) : Int := s.mCurrentCoordinateIndex

/-- The getter `currentCoordinate`: `mPointList.at( mCurrentCoordinateIndex )`. -/
def currentCoordinate (s : RubberbandModel) : Option QgsPoint :=
  qAt s.mPointList s.mCurrentCoordinateIndex

/-- The member `setVertex`. -/
def setVertex (s : RubberbandModel) (index : Int) (coordinate : QgsPoint) : Outcome :=
  match qAt s.mPointList index with
  | none => none
  | some old =>
    if old ≠ coordinate then
      match qReplace s.mPointList index coordinate with
      | none => none
      | some l => some ({ s with mPointList := l }, [Event.vertexChanged index])
    else some (s, [])

/-- The loop of `insertVertices`: each of the `k` rounds reads `currentCoordinate()` on
the list as it is in that round and inserts it at `index`. -/
def insertLoop (s : RubberbandModel) (index : Int) : Nat → Option RubberbandModel
  | 0 => some s
  | k + 1 =>
    match currentCoordinate s with
    | none => none
    | some cur =>
      match qInsert s.mPointList index cur with
      | none => none
      | some l => insertLoop { s with mPointList := l } index k

/-- The member `insertVertices`: the loop runs `count` times (not at all for
`count <= 0`), then both signals are emitted. -/
def insertVertices (s : RubberbandModel) (index count : Int) : Outcome :=
  match insertLoop s index count.toNat with
  | none => none
  | some t => some (t, [Event.verticesInserted index count, Event.vertexCountChanged])

/-- The member `setCurrentCoordinateIndex`. -/
def setCurrentCoordinateIndex (s : RubberbandModel) (currentCoordinateIndex : Int) : Outcome :=
  if currentCoordinateIndex = s.mCurrentCoordinateIndex then some (s, [])
  else
    some ({ s with mCurrentCoordinateIndex := currentCoordinateIndex },
      [Event.currentCoordinateIndexChanged, Event.currentCoordinateChanged])

/-- The member `removeVertices`. -/
def removeVertices (s : RubberbandModel) (index count : Int) : Outcome :=
  if s.mPointList.length ≤ 1 then some (s, [])
  else
    match qRemove s.mPointList index count with
    | none => none
    | some l =>
      let s1 : RubberbandModel := { s with mPointList := l }
      let removed : Outcome := some (s1, [Event.verticesRemoved index count, Event.vertexCountChanged])
      if s1.mCurrentCoordinateIndex ≥ (l.length : Int) then
        (removed.andThen (fun t => setCurrentCoordinateIndex t ((l.length : Int) - 1))).andThen
          (fun t => some (t, [Event.currentCoordinateChanged]))
      else removed

/-- The member `setCurrentCoordinate`. -/
def setCurrentCoordinate (s : RubberbandModel) (currentCoordinate : QgsPoint) : Outcome :=
  if s.mPointList.length = 0 then some (s, [])
  else
    match qAt s.mPointList s.mCurrentCoordinateIndex with
    | none => none
    | some cur =>
      if cur = currentCoordinate then some (s, [])
      else if s.mFrozen then some (s, [])
      else
        match qReplace s.mPointList s.mCurrentCoordinateIndex currentCoordinate with
        | none => none
        | some l =>
          some ({ s with mPointList := l },
            [Event.currentCoordinateChanged, Event.vertexChanged s.mCurrentCoordinateIndex])

/-- The member `setCurrentPositionTimestamp`. -/
def setCurrentPositionTimestamp (s : RubberbandModel) (t : Nat) : RubberbandModel :=
  { s with mCurrentPositionTimestamp := t }

/-- The member `setMeasureValue`. -/
def setMeasureValue (s : RubberbandModel) (measureValue : Dbl) : Outcome :=
  match s.mLayer with
  | none => some (s, [])
  | some layer =>
    if layer.wkbHasM then
      if !measureValue.isnan then
        match currentCoordinate s with
        | none => none
        | some currentPoint => setCurrentCoordinate s (currentPoint.addMValue measureValue)
      else some (s, [])
    else some (s, [])

/-- The guard of `addVertex`: more than one vertex, and `*( end - 1 ) == *( end - 2 )`. -/
def lastTwoEqual (l : List QgsPoint) : Bool :=
  decide (l.length > 1) && (l.get? (l.length - 1) == l.get? (l.length - 2))

/-- The member `addVertex`. -/
def addVertex (s : RubberbandModel) : Outcome :=
  if lastTwoEqual s.mPointList then some (s, [])
  else
    (insertVertices s (s.mCurrentCoordinateIndex + 1) 1).andThen
      (fun t => setCurrentCoordinateIndex t (t.mCurrentCoordinateIndex + 1))

/-- The member `addVertexFromPoint`. -/
def addVertexFromPoint (s : RubberbandModel) (point : QgsPoint) : Outcome :=
  (setCurrentCoordinate s point).andThen addVertex

/-- The member `removeVertex`. -/
def removeVertex (s : RubberbandModel) : Outcome :=
  (setCurrentCoordinateIndex s (s.mCurrentCoordinateIndex - 1)).andThen
    (fun t => removeVertices t (t.mCurrentCoordinateIndex + 1) 1)

/-- The member `reset`. -/
def reset (s : RubberbandModel) : Outcome :=
  (removeVertices s 0 ((s.mPointList.length : Int) - 1)).andThen
    (fun t => some ({ t with mFrozen := false }, [Event.frozenChanged]))

/-- The member `setGeometryType`. -/
def setGeometryType (s : RubberbandModel) (geometryType : GeometryType) : Outcome :=
  if s.mGeometryType = geometryType then some (s, [])
  else some ({ s with mGeometryType := geometryType }, [Event.geometryTypeChanged])

/-- The member `setCrs`. -/
def setCrs (s : RubberbandModel) (crs : Crs) : Outcome :=
  if crs = s.mCrs then some (s, [])
  else some ({ s with mCrs := crs }, [Event.crsChanged])

/-- The member `setVectorLayer`. -/
def setVectorLayer (s : RubberbandModel) (vectorLayer : Option QgsVectorLayer) : Outcome :=
  if vectorLayer = s.mLayer then some (s, [])
  else
    let s1 : RubberbandModel := { s with mLayer := vectorLayer }
    let typed : Outcome :=
      match vectorLayer with
      | some layer => setGeometryType s1 layer.geometryType
      | none => some (s1, [])
    typed.andThen (fun t => some (t, [Event.vectorLayerChanged]))

/-- The member `setFrozen`. -/
def setFrozen (s : RubberbandModel) (frozen : Bool) : Outcome :=
  if s.mFrozen = frozen then some (s, [])
  else some ({ s with mFrozen := frozen }, [Event.frozenChanged])

/-- The two invariants of the data model: at least one vertex, and the current index
inside the list. -/
def Inv (s : RubberbandModel) : Prop :=
  1 ≤ s.vertexCount ∧ 0 ≤ s.mCurrentCoordinateIndex ∧ s.mCurrentCoordinateIndex < s.vertexCount

instance (s : RubberbandModel) : Decidable (Inv s) := by
  unfold Inv; infer_instance

/-- A model holding the given vertices and current index, its other members as
constructed. -/
def withVertices (l : List QgsPoint) (c : Int) : RubberbandModel :=
  { fresh 0 with mPointList := l, mCurrentCoordinateIndex := c }

/-! ## Calls as data -/

/-- A call of one of the mutating member functions, with its arguments. -/
inductive Op where
  | setVertex (index : Int) (coordinate : QgsPoint)
  | insertVertices (index count : Int)
  | removeVertices (index count : Int)
  | setCurrentCoordinateIndex (index : Int)
  | setCurrentCoordinate (coordinate : QgsPoint)
  | setMeasureValue (measureValue : Dbl)
  | addVertex
  | addVertexFromPoint (point : QgsPoint)
  | removeVertex
  | reset
  | setGeometryType (geometryType : GeometryType)
  | setCrs (crs : Crs)
  | setVectorLayer (vectorLayer : Option QgsVectorLayer)
  | setFrozen (frozen : Bool)
  deriving DecidableEq, Repr

/-- Running a call on a model. -/
def Op.run : Op → RubberbandModel → Outcome
  | Op.setVertex index coordinate, s => s.setVertex index coordinate
  | Op.insertVertices index count, s => s.insertVertices index count
  | Op.removeVertices index count, s => s.removeVertices index count
  | Op.setCurrentCoordinateIndex index, s => s.setCurrentCoordinateIndex index
  | Op.setCurrentCoordinate coordinate, s => s.setCurrentCoordinate coordinate
  | Op.setMeasureValue measureValue, s => s.setMeasureValue measureValue
  | Op.addVertex, s => s.addVertex
  | Op.addVertexFromPoint point, s => s.addVertexFromPoint point
  | Op.removeVertex, s => s.removeVertex
  | Op.reset, s => s.reset
  | Op.setGeometryType geometryType, s => s.setGeometryType geometryType
  | Op.setCrs crs, s => s.setCrs crs
  | Op.setVectorLayer vectorLayer, s => s.setVectorLayer vectorLayer
  | Op.setFrozen frozen, s => s.setFrozen frozen

/-- The insert and remove calls with the argument ranges under which the invariant is
claimed: `insertVertices` with `0 <= index <= vertexCount` and `count >= 0`,
`removeVertices` with `index >= 0`, `count >= 0` and `index + count <= vertexCount`,
and `addVertex`, `removeVertex`, `reset` in any state. -/
def Op.admissible (s : RubberbandModel) : Op → Prop
  | Op.insertVertices index count => 0 ≤ index ∧ index ≤ s.vertexCount ∧ 0 ≤ count
  | Op.removeVertices index count => 0 ≤ index ∧ 0 ≤ count ∧ index + count ≤ s.vertexCount
  | Op.addVertex => True
  | Op.removeVertex => True
  | Op.reset => True
  | _ => False

/-- The same calls, narrowed to those that the code keeps inside the invariant: a
`removeVertices` on several vertices leaves at least one of them, and `removeVertex`
is called with a predecessor of the current vertex present. -/
def Op.guarded (s : RubberbandModel) : Op → Prop
  | Op.insertVertices index count => 0 ≤ index ∧ index ≤ s.vertexCount ∧ 0 ≤ count
  | Op.removeVertices index count =>
      0 ≤ index ∧ 0 ≤ count ∧ index + count ≤ s.vertexCount ∧
        (count < s.vertexCount ∨ s.vertexCount ≤ 1)
  | Op.addVertex => True
  | Op.removeVertex => 1 ≤ s.mCurrentCoordinateIndex
  | Op.reset => True
  | _ => False

instance (s : RubberbandModel) (op : Op) : Decidable (Op.admissible s op) := by
  cases op <;> simp only [Op.admissible] <;> infer_instance

instance (s : RubberbandModel) (op : Op) : Decidable (Op.guarded s op) := by
  cases op <;> simp only [Op.guarded] <;> infer_instance

/-- What a signal announces, read between the model `s` before a call and the model `t`
after it. `vertexCountChanged` is about the length of the vertex list, and
`currentCoordinateChanged` about the vertex list and the current index, from which the
current coordinate is read. -/
def announces (s t : RubberbandModel) : Event → Prop
  | Event.vertexChanged index => qAt s.mPointList index ≠ qAt t.mPointList index
  | Event.verticesInserted _ _ => s.mPointList ≠ t.mPointList
  | Event.verticesRemoved _ _ => s.mPointList ≠ t.mPointList
  | Event.vertexCountChanged => s.vertexCount ≠ t.vertexCount
  | Event.currentCoordinateIndexChanged => s.mCurrentCoordinateIndex ≠ t.mCurrentCoordinateIndex
  | Event.currentCoordinateChanged =>
      s.mPointList ≠ t.mPointList ∨ s.mCurrentCoordinateIndex ≠ t.mCurrentCoordinateIndex
  | Event.geometryTypeChanged => s.mGeometryType ≠ t.mGeometryType
  | Event.crsChanged => s.mCrs ≠ t.mCrs
  | Event.vectorLayerChanged => s.mLayer ≠ t.mLayer
  | Event.frozenChanged => s.mFrozen ≠ t.mFrozen

/-- The calls for which signals are suppressed when nothing changes: all but `reset`,
and `insertVertices` and `removeVertices` only with a count of at least one. -/
def Op.suppresses : Op → Prop
  | Op.reset => False
  | Op.insertVertices _ count => 1 ≤ count
  | Op.removeVertices _ count => 1 ≤ count
  | _ => True

instance (op : Op) : Decidable (Op.suppresses op) := by
  cases op <;> simp only [Op.suppresses] <;> infer_instance

/-- The models that a finite sequence of calls reaches from `start`, every call
satisfying `ok` in the state it is made in and running to completion. -/
inductive Reachable (ok : RubberbandModel → Op → Prop) (start : RubberbandModel) :
    RubberbandModel → Prop where
  | start : Reachable ok start start
  | call (s t : RubberbandModel) (es : List Event) (op : Op) :
      Reachable ok start s → ok s op → op.run s = some (t, es) → Reachable ok start t

end RubberbandModel

/-! ## Projection and ingestion: library values -/

/-- The constructor `QgsPoint( x, y )`: a point without Z and M. -/
def QgsPoint.ofXY (x y : Dbl) : QgsPoint :=
  { x := x, y := y, z := Dbl.nan, m := Dbl.nan, hasZ := false, hasM := false }

/-- The member `QgsPoint::setX`. -/
def QgsPoint.setX (p : QgsPoint) (x : Dbl) : QgsPoint := { p with x := x }

/-- The member `QgsPoint::setY`. -/
def QgsPoint.setY (p : QgsPoint) (y : Dbl) : QgsPoint := { p with y := y }

/-- The member `QgsPoint::addZValue`: adds the Z dimension with the given value; a
point that already has Z is left as it is. -/
def QgsPoint.addZValue (p : QgsPoint) (zValue : Dbl) : QgsPoint :=
  if p.hasZ then p else { p with hasZ := true, z := zValue }

/-- What the model reads of a `QgsWkbTypes::Type`: `QgsWkbTypes::hasZ` and
`QgsWkbTypes::hasM`. -/
structure WkbType where
  hasZ : Bool
  hasM : Bool
  deriving DecidableEq, Repr

/-- A constructed `QgsCoordinateTransform ct( source, destination, context )`, as the two
calls the model makes on it. Each may throw; a throw is `none`. -/
structure QgsCoordinateTransform where
  transform : Dbl → Dbl → Option (Dbl × Dbl)
  transformInPlace : Dbl → Dbl → Dbl → Option (Dbl × Dbl × Dbl)

/-- The transform between equal reference systems: every coordinate is returned as it
is. -/
def QgsCoordinateTransform.identity : QgsCoordinateTransform :=
  { transform := fun x y => some (x, y)
    transformInPlace := fun x y z => some (x, y, z) }

/-- Modelled from the spec: `SnappingUtils::newPoint` of snappingutils.cpp, which is not
among the sources. The spec has Z and M "carried over only where both source and
`targetType` agree the component exists": the new point takes X and Y of the given
point, and its Z, respectively M, where both the point and the type have it. -/
def SnappingUtils.newPoint (pt : QgsPoint) (wkbType : WkbType) : QgsPoint :=
  { x := pt.x
    y := pt.y
    z := if pt.hasZ && wkbType.hasZ then pt.z else Dbl.nan
    m := if pt.hasM && wkbType.hasM then pt.m else Dbl.nan
    hasZ := pt.hasZ && wkbType.hasZ
    hasM := pt.hasM && wkbType.hasM }

/-- The class `QgsVertexId`: part, ring and vertex number. -/
structure QgsVertexId where
  part : Int
  ring : Int
  vertex : Int
  deriving DecidableEq, Repr

/-- A `QgsGeometry`: its geometry type, and its parts, each a list of rings, each a list
of vertices (a line is a part with one ring). `parts` is `none` for a geometry whose
`constGet()` is null. -/
structure QgsGeometry where
  type : GeometryType
  parts : Option (List (List (List QgsPoint)))
  deriving DecidableEq, Repr

/-- The vertices of one ring in the order `nextVertex` yields them, numbered from
`vertex`. -/
def ringVertices (part ring : Int) : Int → List QgsPoint → List (QgsVertexId × QgsPoint)
  | _, [] => []
  | vertex, pt :: rest =>
    ({ part := part, ring := ring, vertex := vertex }, pt) :: ringVertices part ring (vertex + 1) rest

/-- The vertices of the rings of one part, the rings numbered from `ring`. -/
def partVertices (part : Int) : Int → List (List QgsPoint) → List (QgsVertexId × QgsPoint)
  | _, [] => []
  | ring, pts :: rest => ringVertices part ring 0 pts ++ partVertices part (ring + 1) rest

/-- The vertices of the parts of a geometry, the parts numbered from `part`: the
sequence of `( vertexId, pt )` that repeated calls of `nextVertex` yield. -/
def geometryVertices : Int → List (List (List QgsPoint)) → List (QgsVertexId × QgsPoint)
  | _, [] => []
  | part, rings :: rest => partVertices part 0 rings ++ geometryVertices (part + 1) rest

namespace RubberbandModel

/-- The body of the loop of `pointSequence` for one vertex `pt`. `newPoint` stands for
`SnappingUtils::newPoint`. -/
def projectPoint (ct : QgsCoordinateTransform) (newPoint : QgsPoint → WkbType → QgsPoint)
    (wkbType : WkbType) (pt : QgsPoint) : Option QgsPoint :=
  match ct.transform pt.x pt.y with
  | none => none
  | some (x1, y1) =>
    let p2 := ((newPoint pt wkbType).setX x1).setY y1
    let p2 := if pt.hasM && wkbType.hasM then p2.addMValue pt.m else p2
    let p2 := if pt.hasZ && wkbType.hasZ then p2.addMValue pt.z else p2
    some p2

/-- The loop of `pointSequence` over the vertex list; a throwing transform ends it. -/
def projectAll (ct : QgsCoordinateTransform) (newPoint : QgsPoint → WkbType → QgsPoint)
    (wkbType : WkbType) : List QgsPoint → Option (List QgsPoint)
  | [] => some []
  | pt :: rest =>
    match projectPoint ct newPoint wkbType pt with
    | none => none
    | some p2 =>
      match projectAll ct newPoint wkbType rest with
      | none => none
      | some sequence => some (p2 :: sequence)

/-- The member `pointSequence`. `ct` is the transform from `mCrs` to the target
reference system. -/
def pointSequence (ct : QgsCoordinateTransform) (newPoint : QgsPoint → WkbType → QgsPoint)
    (s : RubberbandModel) (wkbType : WkbType) (closeLine : Bool) : Option (List QgsPoint) :=
  match projectAll ct newPoint wkbType s.mPointList with
  | none => none
  | some sequence =>
    if closeLine && decide (sequence.length > 1) then
      match sequence.get? 0 with
      | none => none
      | some first => some (sequence ++ [first])
    else some sequence

/-- The member `currentPoint`. `ct` is the transform from `mCrs` to the target reference
system; when it throws, the exception is caught and the coordinates stay as read. -/
def currentPoint (ct : QgsCoordinateTransform) (s : RubberbandModel) (wkbType : WkbType) :
    Option QgsPoint :=
  match qAt s.mPointList s.mCurrentCoordinateIndex with
  | none => none
  | some currentPt =>
    let x := currentPt.x
    let y := currentPt.y
    let z := if currentPt.hasZ then currentPt.z else Dbl.num 0
    let m := if currentPt.hasM then currentPt.m else Dbl.num 0
    let r := match ct.transformInPlace x y z with
      | some r => r
      | none => (x, y, z)
    let resultPt := QgsPoint.ofXY r.1 r.2.1
    let resultPt := if currentPt.hasZ && wkbType.hasZ then resultPt.addZValue r.2.2 else resultPt
    let resultPt := if currentPt.hasM && wkbType.hasM then resultPt.addMValue m else resultPt
    some resultPt

/-- The getter `measureValue`. -/
def measureValue (s : RubberbandModel) : Option Dbl :=
  match qAt s.mPointList s.mCurrentCoordinateIndex with
  | none => none
  | some p => some (if p.hasM then p.m else Dbl.num 0)

/-- The loop of `setDataFromGeometry` over the vertices that `nextVertex` yields: it
ends at the first vertex with `part > 1` or `ring > 0`, and on a polygon skips the
vertices numbered 0. -/
def ingest (polygon : Bool) : List (QgsVertexId × QgsPoint) → List QgsPoint
  | [] => []
  | (vertexId, pt) :: rest =>
    if vertexId.part > 1 ∨ vertexId.ring > 0 then []
    else if polygon = true ∧ vertexId.vertex = 0 then ingest polygon rest
    else pt :: ingest polygon rest

/-- The member `setDataFromGeometry`. `transform` stands for `geometry.transform( ct )`
with `ct` the transform from the given reference system to `mCrs`. -/
def setDataFromGeometry (transform : QgsGeometry → QgsGeometry) (s : RubberbandModel)
    (geometry : QgsGeometry) : Outcome :=
  if geometry.type ≠ s.mGeometryType then some (s, [])
  else
    let geometry := transform geometry
    match geometry.parts with
    | none => some ({ s with mPointList := [] }, [])
    | some parts =>
      let l := ingest (decide (geometry.type = GeometryType.PolygonGeometry)) (geometryVertices 0 parts)
      some ({ s with mPointList := l, mCurrentCoordinateIndex := (l.length : Int) - 1 },
        [Event.verticesInserted 0 (l.length : Int), Event.vertexCountChanged])

end RubberbandModel

/-! ## Lemmas on the vector primitives -/

theorem qAt_eq_some_of_lt (l : List QgsPoint) (i : Int) (h0 : 0 ≤ i) (h1 : i < (l.length : Int)) :
    ∃ p, qAt l i = some p ∧ l.get? i.toNat = some p := by
  have hlt : i.toNat < l.length := by omega
  refine ⟨l.get ⟨i.toNat, hlt⟩, ?_, ?_⟩
  · simp [qAt, h0, List.get?_eq_get hlt]
  · simp [List.get?_eq_get hlt]

theorem qAt_range (l : List QgsPoint) (i : Int) (p : QgsPoint) (h : qAt l i = some p) :
    0 ≤ i ∧ i < (l.length : Int) := by
  unfold qAt at h
  split at h
  · rename_i h0
    have := List.get?_eq_some.mp h
    obtain ⟨hlt, _⟩ := this
    omega
  · cases h

theorem qRemove_length (l r : List QgsPoint) (i count : Int) (h : qRemove l i count = some r) :
    (r.length : Int) = (l.length : Int) - count ∧ 0 ≤ i ∧ 0 ≤ count ∧ i + count ≤ (l.length : Int) := by
  unfold qRemove at h
  split at h
  · rename_i hr
    injection h with h
    subst h
    refine ⟨?_, hr⟩
    simp only [List.length_append, List.length_take, List.length_drop]
    omega
  · cases h

theorem qRemove_eq (l : List QgsPoint) (i count : Int) (h0 : 0 ≤ i) (hc : 0 ≤ count)
    (hle : i + count ≤ (l.length : Int)) :
    qRemove l i count = some (l.take i.toNat ++ l.drop (i + count).toNat) := by
  simp [qRemove, h0, hc, hle]

namespace RubberbandModel

theorem insertLoop_spec (index : Int) (k : Nat) :
    ∀ s : RubberbandModel, 0 ≤ s.mCurrentCoordinateIndex →
      s.mCurrentCoordinateIndex < (s.mPointList.length : Int) →
      0 ≤ index → index ≤ (s.mPointList.length : Int) →
      ∃ t, insertLoop s index k = some t ∧ t.mPointList.length = s.mPointList.length + k ∧
        t.mCurrentCoordinateIndex = s.mCurrentCoordinateIndex := by
  induction k with
  | zero => intro s _ _ _ _; exact ⟨s, rfl, rfl, rfl⟩
  | succ k ih =>
    intro s h0 h1 hi0 hi1
    obtain ⟨p, hp, _⟩ := qAt_eq_some_of_lt s.mPointList s.mCurrentCoordinateIndex h0 h1
    have hins : qInsert s.mPointList index p
        = some (s.mPointList.take index.toNat ++ p :: s.mPointList.drop index.toNat) := by
      simp [qInsert, hi0, hi1]
    have hlen : (s.mPointList.take index.toNat ++ p :: s.mPointList.drop index.toNat).length
        = s.mPointList.length + 1 := by
      simp only [List.length_append, List.length_take, List.length_cons, List.length_drop]
      omega
    obtain ⟨t, ht, htl, hti⟩ := ih
      { s with mPointList := s.mPointList.take index.toNat ++ p :: s.mPointList.drop index.toNat }
      h0 (by rw [hlen]; push_cast; omega) hi0 (by rw [hlen]; push_cast; omega)
    refine ⟨t, ?_, ?_, hti⟩
    · simp only [insertLoop, currentCoordinate, hp, hins]
      exact ht
    · rw [htl, hlen]; omega

theorem removeVertices_eq (s : RubberbandModel) (index count : Int)
    (hn : 2 ≤ s.mPointList.length) (h0 : 0 ≤ index) (hc : 0 ≤ count)
    (hle : index + count ≤ (s.mPointList.length : Int)) :
    s.removeVertices index count =
      if s.mCurrentCoordinateIndex ≥ (s.mPointList.length : Int) - count then
        some ({ s with
                mPointList := s.mPointList.take index.toNat ++ s.mPointList.drop (index + count).toNat
                mCurrentCoordinateIndex := (s.mPointList.length : Int) - count - 1 },
              [Event.verticesRemoved index count, Event.vertexCountChanged,
               Event.currentCoordinateIndexChanged, Event.currentCoordinateChanged,
               Event.currentCoordinateChanged])
      else
        some ({ s with
                mPointList := s.mPointList.take index.toNat ++ s.mPointList.drop (index + count).toNat },
              [Event.verticesRemoved index count, Event.vertexCountChanged]) := by
  have hlen : ((s.mPointList.take index.toNat ++ s.mPointList.drop (index + count).toNat).length : Int)
      = (s.mPointList.length : Int) - count := by
    simp only [List.length_append, List.length_take, List.length_drop]
    omega
  have hgt : ¬ s.mPointList.length ≤ 1 := by omega
  unfold removeVertices
  rw [if_neg hgt, qRemove_eq _ _ _ h0 hc hle]
  simp only [hlen]
  by_cases hcur : s.mCurrentCoordinateIndex ≥ (s.mPointList.length : Int) - count
  · rw [if_pos hcur, if_pos hcur]
    have hne : ¬ ((s.mPointList.length : Int) - count - 1 = s.mCurrentCoordinateIndex) := by omega
    simp [Outcome.andThen, setCurrentCoordinateIndex, hne]
  · rw [if_neg hcur, if_neg hcur]

theorem insertVertices_one_eq (s : RubberbandModel) (index : Int) (cur : QgsPoint)
    (hcur : qAt s.mPointList s.mCurrentCoordinateIndex = some cur)
    (hi0 : 0 ≤ index) (hi1 : index ≤ (s.mPointList.length : Int)) :
    s.insertVertices index 1 =
      some ({ s with mPointList := s.mPointList.take index.toNat ++ cur :: s.mPointList.drop index.toNat },
            [Event.verticesInserted index 1, Event.vertexCountChanged]) := by
  have hins : qInsert s.mPointList index cur
      = some (s.mPointList.take index.toNat ++ cur :: s.mPointList.drop index.toNat) := by
    simp [qInsert, hi0, hi1]
  have h1 : (1 : Int).toNat = 0 + 1 := rfl
  simp only [insertVertices, h1, insertLoop, currentCoordinate, hcur, hins]

theorem addVertex_eq (s : RubberbandModel) (cur : QgsPoint)
    (hcur : qAt s.mPointList s.mCurrentCoordinateIndex = some cur)
    (hguard : lastTwoEqual s.mPointList = false) :
    s.addVertex =
      some ({ s with
              mPointList := s.mPointList.take (s.mCurrentCoordinateIndex + 1).toNat
                ++ cur :: s.mPointList.drop (s.mCurrentCoordinateIndex + 1).toNat
              mCurrentCoordinateIndex := s.mCurrentCoordinateIndex + 1 },
            [Event.verticesInserted (s.mCurrentCoordinateIndex + 1) 1, Event.vertexCountChanged,
             Event.currentCoordinateIndexChanged, Event.currentCoordinateChanged]) := by
  obtain ⟨h0, h1⟩ := qAt_range _ _ _ hcur
  have hne : ¬ (s.mCurrentCoordinateIndex + 1 = s.mCurrentCoordinateIndex) := by omega
  unfold addVertex
  rw [hguard, insertVertices_one_eq s _ cur hcur (by omega) (by omega)]
  simp [Outcome.andThen, setCurrentCoordinateIndex]

theorem removeVertex_eq (s : RubberbandModel) (h1 : 1 ≤ s.mCurrentCoordinateIndex)
    (h2 : s.mCurrentCoordinateIndex < (s.mPointList.length : Int)) :
    s.removeVertex =
      some ({ s with
              mPointList := s.mPointList.take s.mCurrentCoordinateIndex.toNat
                ++ s.mPointList.drop (s.mCurrentCoordinateIndex + 1).toNat
              mCurrentCoordinateIndex := s.mCurrentCoordinateIndex - 1 },
            [Event.currentCoordinateIndexChanged, Event.currentCoordinateChanged,
             Event.verticesRemoved s.mCurrentCoordinateIndex 1, Event.vertexCountChanged]) := by
  have hne : ¬ (s.mCurrentCoordinateIndex - 1 = s.mCurrentCoordinateIndex) := by omega
  have hrem := removeVertices_eq { s with mCurrentCoordinateIndex := s.mCurrentCoordinateIndex - 1 }
    s.mCurrentCoordinateIndex 1 (by simp only; omega) (by omega) (by omega) (by simp only; omega)
  have hnot : ¬ (s.mCurrentCoordinateIndex - 1 ≥ (s.mPointList.length : Int) - 1) := by omega
  simp only [if_neg hnot] at hrem
  unfold removeVertex
  simp only [setCurrentCoordinateIndex, if_neg hne, Outcome.andThen, Int.sub_add_cancel, hrem,
    List.cons_append, List.nil_append]

theorem reset_eq (s : RubberbandModel) (h0 : 0 ≤ s.mCurrentCoordinateIndex)
    (h1 : s.mCurrentCoordinateIndex < (s.mPointList.length : Int)) :
    s.reset =
      some ({ s with
              mPointList := s.mPointList.drop (s.mPointList.length - 1)
              mCurrentCoordinateIndex := 0
              mFrozen := false },
            (if s.mPointList.length ≤ 1 then []
             else [Event.verticesRemoved 0 ((s.mPointList.length : Int) - 1), Event.vertexCountChanged]
               ++ (if 1 ≤ s.mCurrentCoordinateIndex then
                    [Event.currentCoordinateIndexChanged, Event.currentCoordinateChanged,
                     Event.currentCoordinateChanged]
                   else []))
            ++ [Event.frozenChanged]) := by
  by_cases hn : s.mPointList.length ≤ 1
  · have hlen : s.mPointList.length = 1 := by omega
    have hc : s.mCurrentCoordinateIndex = 0 := by omega
    unfold reset removeVertices
    rw [if_pos hn, if_pos hn]
    simp only [Outcome.andThen, List.nil_append, hlen, Nat.sub_self, List.drop_zero, ← hc]
  · have hrem := removeVertices_eq s 0 ((s.mPointList.length : Int) - 1) (by omega) (by omega)
      (by omega) (by omega)
    have ht : (0 + ((s.mPointList.length : Int) - 1)).toNat = s.mPointList.length - 1 := by omega
    have hz : (s.mPointList.length : Int) - ((s.mPointList.length : Int) - 1) - 1 = 0 := by omega
    simp only [ht, hz, Int.toNat_zero, List.take_zero, List.nil_append] at hrem
    rw [if_neg hn]
    by_cases hc : 1 ≤ s.mCurrentCoordinateIndex
    · have hc2 : s.mCurrentCoordinateIndex ≥ (s.mPointList.length : Int) - ((s.mPointList.length : Int) - 1) := by
        omega
      rw [if_pos hc2] at hrem
      unfold reset
      rw [hrem, if_pos hc]
      simp only [Outcome.andThen, List.cons_append, List.nil_append]
    · have hc2 : ¬ s.mCurrentCoordinateIndex ≥ (s.mPointList.length : Int) - ((s.mPointList.length : Int) - 1) := by
        omega
      rw [if_neg hc2] at hrem
      have hc0 : s.mCurrentCoordinateIndex = 0 := by omega
      unfold reset
      rw [hrem, if_neg hc]
      simp only [Outcome.andThen, List.cons_append, List.nil_append, List.append_nil, ← hc0]

theorem guarded_step (s : RubberbandModel) (op : Op) (hinv : Inv s) (hok : Op.guarded s op) :
    ∃ t es, op.run s = some (t, es) ∧ Inv t := by
  obtain ⟨hn, h0, h1⟩ := hinv
  simp only [vertexCount] at hn h1
  cases op with
  | insertVertices index count =>
    obtain ⟨hi0, hi1, _⟩ := hok
    simp only [vertexCount] at hi1
    obtain ⟨t, ht, htl, hti⟩ := insertLoop_spec index count.toNat s h0 h1 hi0 hi1
    refine ⟨t, [Event.verticesInserted index count, Event.vertexCountChanged], ?_, ?_⟩
    · simp only [Op.run, insertVertices, ht]
    · simp only [Inv, vertexCount, htl, hti]
      omega
  | removeVertices index count =>
    obtain ⟨hi0, hc0, hle, hkeep⟩ := hok
    simp only [vertexCount] at hle hkeep
    by_cases hsmall : s.mPointList.length ≤ 1
    · refine ⟨s, [], ?_, ⟨hn, h0, h1⟩⟩
      simp only [Op.run, removeVertices, if_pos hsmall]
    · have hrem := removeVertices_eq s index count (by omega) hi0 hc0 hle
      have hlen : ((s.mPointList.take index.toNat ++ s.mPointList.drop (index + count).toNat).length : Int)
          = (s.mPointList.length : Int) - count := by
        simp only [List.length_append, List.length_take, List.length_drop]
        omega
      by_cases hcur : s.mCurrentCoordinateIndex ≥ (s.mPointList.length : Int) - count
      · rw [if_pos hcur] at hrem
        refine ⟨_, _, hrem, ?_⟩
        simp only [Inv, vertexCount, hlen]
        omega
      · rw [if_neg hcur] at hrem
        refine ⟨_, _, hrem, ?_⟩
        simp only [Inv, vertexCount, hlen]
        omega
  | addVertex =>
    by_cases hguard : lastTwoEqual s.mPointList = true
    · refine ⟨s, [], ?_, ⟨hn, h0, h1⟩⟩
      simp only [Op.run, addVertex, hguard, if_true]
    · obtain ⟨cur, hcur, _⟩ := qAt_eq_some_of_lt s.mPointList s.mCurrentCoordinateIndex h0 h1
      have hadd := addVertex_eq s cur hcur (by simpa using hguard)
      refine ⟨_, _, hadd, ?_⟩
      simp only [Inv, vertexCount, List.length_append, List.length_take, List.length_cons,
        List.length_drop]
      omega
  | removeVertex =>
    have hc1 : 1 ≤ s.mCurrentCoordinateIndex := hok
    refine ⟨_, _, removeVertex_eq s hc1 h1, ?_⟩
    simp only [Inv, vertexCount, List.length_append, List.length_take, List.length_drop]
    omega
  | reset =>
    refine ⟨_, _, reset_eq s h0 h1, ?_⟩
    simp only [Inv, vertexCount, List.length_drop]
    omega
  | setVertex _ _ => exact absurd hok (by simp [Op.guarded])
  | setCurrentCoordinateIndex _ => exact absurd hok (by simp [Op.guarded])
  | setCurrentCoordinate _ => exact absurd hok (by simp [Op.guarded])
  | setMeasureValue _ => exact absurd hok (by simp [Op.guarded])
  | addVertexFromPoint _ => exact absurd hok (by simp [Op.guarded])
  | setGeometryType _ => exact absurd hok (by simp [Op.guarded])
  | setCrs _ => exact absurd hok (by simp [Op.guarded])
  | setVectorLayer _ => exact absurd hok (by simp [Op.guarded])
  | setFrozen _ => exact absurd hok (by simp [Op.guarded])

theorem fresh_inv (crs : Crs) : Inv (fresh crs) := by
  simp [Inv, fresh, vertexCount]

/-! ## C1: the invariant along sequences of insert and remove calls -/

/-- C1, as amended. Every model reached from a freshly constructed one by insert and
remove calls that keep a vertex (`Op.guarded`) has at least one vertex and its current
index inside the list; and every such call made on it runs to completion and leaves a
model with that property again. -/
theorem inv_of_reachable_guarded (crs : Crs) (s : RubberbandModel)
    (h : Reachable Op.guarded (fresh crs) s) :
    Inv s ∧ ∀ op, Op.guarded s op → ∃ t es, op.run s = some (t, es) ∧ Inv t := by
  have hinv : Inv s := by
    induction h with
    | start => exact fresh_inv crs
    | call a b es op _ hok hrun ih =>
      obtain ⟨t, fs, ht, hti⟩ := guarded_step a op ih hok
      rw [hrun] at ht
      injection ht with ht
      injection ht with ht _
      rw [ht]
      exact hti
  exact ⟨hinv, fun op hok => guarded_step s op hinv hok⟩

theorem inv_of_reachable_guarded_witness :
    Reachable Op.guarded (fresh 0) (withVertices [QgsPoint.origin, QgsPoint.origin] 1) ∧
      Inv (withVertices [QgsPoint.origin, QgsPoint.origin] 1) :=
  have hreach : Reachable Op.guarded (fresh 0) (withVertices [QgsPoint.origin, QgsPoint.origin] 1) :=
    Reachable.call (fresh 0) _
      [Event.verticesInserted 1 1, Event.vertexCountChanged,
       Event.currentCoordinateIndexChanged, Event.currentCoordinateChanged]
      Op.addVertex Reachable.start trivial (by decide)
  ⟨hreach, (inv_of_reachable_guarded 0 _ hreach).1⟩

/-- C1, as stated, fails. On a freshly constructed model `removeVertex()` moves the
current index to -1; and after `insertVertices(1, 1)` the call `removeVertices(0, 2)`,
whose arguments are in the stated range, removes both vertices. -/
theorem inv_fails_as_stated :
    (Op.admissible (fresh 0) Op.removeVertex ∧
      Op.removeVertex.run (fresh 0)
        = some (withVertices [QgsPoint.origin] (-1),
            [Event.currentCoordinateIndexChanged, Event.currentCoordinateChanged]) ∧
      Reachable Op.admissible (fresh 0) (withVertices [QgsPoint.origin] (-1)) ∧
      ¬ Inv (withVertices [QgsPoint.origin] (-1))) ∧
    (Op.admissible (fresh 0) (Op.insertVertices 1 1) ∧
      (Op.insertVertices 1 1).run (fresh 0)
        = some (withVertices [QgsPoint.origin, QgsPoint.origin] 0,
            [Event.verticesInserted 1 1, Event.vertexCountChanged]) ∧
      Op.admissible (withVertices [QgsPoint.origin, QgsPoint.origin] 0) (Op.removeVertices 0 2) ∧
      (Op.removeVertices 0 2).run (withVertices [QgsPoint.origin, QgsPoint.origin] 0)
        = some (withVertices [] (-1),
            [Event.verticesRemoved 0 2, Event.vertexCountChanged,
             Event.currentCoordinateIndexChanged, Event.currentCoordinateChanged,
             Event.currentCoordinateChanged]) ∧
      Reachable Op.admissible (fresh 0) (withVertices [] (-1)) ∧
      ¬ Inv (withVertices [] (-1))) := by
  have a1 : Op.admissible (fresh 0) Op.removeVertex := trivial
  have a2 : Op.removeVertex.run (fresh 0)
      = some (withVertices [QgsPoint.origin] (-1),
          [Event.currentCoordinateIndexChanged, Event.currentCoordinateChanged]) := by decide
  have b1 : Op.admissible (fresh 0) (Op.insertVertices 1 1) := by decide
  have b2 : (Op.insertVertices 1 1).run (fresh 0)
      = some (withVertices [QgsPoint.origin, QgsPoint.origin] 0,
          [Event.verticesInserted 1 1, Event.vertexCountChanged]) := by decide
  have b3 : Op.admissible (withVertices [QgsPoint.origin, QgsPoint.origin] 0) (Op.removeVertices 0 2) := by
    decide
  have b4 : (Op.removeVertices 0 2).run (withVertices [QgsPoint.origin, QgsPoint.origin] 0)
      = some (withVertices [] (-1),
          [Event.verticesRemoved 0 2, Event.vertexCountChanged,
           Event.currentCoordinateIndexChanged, Event.currentCoordinateChanged,
           Event.currentCoordinateChanged]) := by decide
  refine ⟨⟨a1, a2, Reachable.call _ _ _ _ Reachable.start a1 a2, by decide⟩,
    ⟨b1, b2, b3, b4, ?_, by decide⟩⟩
  exact Reachable.call _ _ _ _ (Reachable.call _ _ _ _ Reachable.start b1 b2) b3 b4

/-! ## C2: removals that would leave nothing -/

/-- C2, as amended. On a model with at most one vertex `removeVertices(index, count)`
is a no-op for every index and count: the model is unchanged and no signal is
emitted. -/
theorem removeVertices_noop_of_single (s : RubberbandModel) (index count : Int)
    (h : s.vertexCount ≤ 1) : s.removeVertices index count = some (s, []) := by
  have hlen : s.mPointList.length ≤ 1 := by
    simp only [vertexCount] at h
    omega
  simp only [removeVertices, if_pos hlen]

theorem removeVertices_noop_of_single_witness :
    (fresh 0).vertexCount ≤ 1 ∧ (fresh 0).removeVertices 0 1 = some (fresh 0, []) :=
  ⟨by decide, removeVertices_noop_of_single (fresh 0) 0 1 (by decide)⟩

/-- C2, as stated, fails. On the two vertices (0,0), (1,1) the call
`removeVertices(0, 2)` would leave the list empty, and it is carried out: both
vertices are removed, the index becomes -1 and five signals are emitted. -/
theorem removeVertices_empties_two :
    (withVertices [QgsPoint.xy 0 0, QgsPoint.xy 1 1] 0).vertexCount = 2 ∧
    (withVertices [QgsPoint.xy 0 0, QgsPoint.xy 1 1] 0).removeVertices 0 2
      = some (withVertices [] (-1),
          [Event.verticesRemoved 0 2, Event.vertexCountChanged,
           Event.currentCoordinateIndexChanged, Event.currentCoordinateChanged,
           Event.currentCoordinateChanged]) ∧
    (withVertices [QgsPoint.xy 0 0, QgsPoint.xy 1 1] 0).removeVertices 0 2
      ≠ some (withVertices [QgsPoint.xy 0 0, QgsPoint.xy 1 1] 0, []) := by
  decide

/-! ## C3: what insertVertices inserts -/

/-- C3 at the failing input. On the vertices (0,0), (1,1) with the second one current,
`insertVertices(0, 2)` inserts (1,1) in its first round and (0,0) in its second, which
by then sits at the current index: the list becomes (0,0), (1,1), (0,0), (1,1) and not
(1,1), (1,1), (0,0), (1,1). -/
theorem insertVertices_rereads_current :
    (withVertices [QgsPoint.xy 0 0, QgsPoint.xy 1 1] 1).currentCoordinate = some (QgsPoint.xy 1 1) ∧
    (withVertices [QgsPoint.xy 0 0, QgsPoint.xy 1 1] 1).insertVertices 0 2
      = some (withVertices [QgsPoint.xy 0 0, QgsPoint.xy 1 1, QgsPoint.xy 0 0, QgsPoint.xy 1 1] 1,
          [Event.verticesInserted 0 2, Event.vertexCountChanged]) ∧
    [QgsPoint.xy 0 0, QgsPoint.xy 1 1, QgsPoint.xy 0 0, QgsPoint.xy 1 1]
      ≠ [] ++ [QgsPoint.xy 1 1, QgsPoint.xy 1 1] ++ [QgsPoint.xy 0 0, QgsPoint.xy 1 1] := by
  decide

/-! ## C4 and C5: addVertex -/

theorem lastTwoEqual_iff (l : List QgsPoint) :
    lastTwoEqual l = true ↔ 2 ≤ l.length ∧ l.get? (l.length - 1) = l.get? (l.length - 2) := by
  simp only [lastTwoEqual, Bool.and_eq_true, decide_eq_true_eq, beq_iff_eq]
  constructor
  · rintro ⟨h1, h2⟩
    exact ⟨by omega, h2⟩
  · rintro ⟨h1, h2⟩
    exact ⟨by omega, h2⟩

theorem lastTwoEqual_append_current (l : List QgsPoint) (cur : QgsPoint) (hn : 1 ≤ l.length)
    (hcur : l.get? (l.length - 1) = some cur) : lastTwoEqual (l ++ [cur]) = true := by
  rw [lastTwoEqual_iff]
  have hlen : (l ++ [cur]).length = l.length + 1 := by simp
  refine ⟨by omega, ?_⟩
  have e1 : (l ++ [cur]).length - 1 = l.length := by omega
  have e2 : (l ++ [cur]).length - 2 = l.length - 1 := by omega
  rw [e1, e2]
  have hlt : l.length - 1 < l.length := by omega
  rw [List.get?_eq_getElem?] at hcur
  rw [List.get?_eq_getElem?, List.get?_eq_getElem?, List.getElem?_append_right (Nat.le_refl _),
    List.getElem?_append_left hlt, hcur]
  simp

/-- C4, as amended. On a model satisfying the invariants whose current index is the last
position, a first `addVertex()` returns some model `t`, and a second `addVertex()` on
`t` returns `t` itself and emits nothing: two calls in a row give the vertex list and
current index of one call. -/
theorem addVertex_twice_at_end (s : RubberbandModel) (hinv : Inv s)
    (hlast : s.mCurrentCoordinateIndex = s.vertexCount - 1) :
    ∃ t es, s.addVertex = some (t, es) ∧ t.addVertex = some (t, []) := by
  obtain ⟨hn, h0, h1⟩ := hinv
  simp only [vertexCount] at hn h1 hlast
  by_cases hguard : lastTwoEqual s.mPointList = true
  · have hrun : s.addVertex = some (s, []) := by simp only [addVertex, hguard, if_true]
    exact ⟨s, [], hrun, hrun⟩
  · obtain ⟨cur, hcur, hget⟩ := qAt_eq_some_of_lt s.mPointList s.mCurrentCoordinateIndex h0 h1
    have hadd := addVertex_eq s cur hcur (by simpa using hguard)
    have hidx : (s.mCurrentCoordinateIndex + 1).toNat = s.mPointList.length := by omega
    have hpos : s.mCurrentCoordinateIndex.toNat = s.mPointList.length - 1 := by omega
    rw [hidx, List.take_length, List.drop_length] at hadd
    rw [hpos] at hget
    refine ⟨_, _, hadd, ?_⟩
    have hdup := lastTwoEqual_append_current s.mPointList cur (by omega) hget
    simp only [addVertex, hdup, if_true]

theorem addVertex_twice_at_end_witness :
    Inv (fresh 0) ∧ (fresh 0).mCurrentCoordinateIndex = (fresh 0).vertexCount - 1 ∧
    ∃ t es, (fresh 0).addVertex = some (t, es) ∧ t.addVertex = some (t, []) :=
  ⟨by decide, by decide, addVertex_twice_at_end (fresh 0) (by decide) (by decide)⟩

/-- C4, as stated, fails. On the vertices (0,0), (1,1) with the first one current, a
first `addVertex()` gives (0,0), (0,0), (1,1) with index 1; the last two vertices
differ, so a second call inserts again and gives (0,0), (0,0), (0,0), (1,1) with
index 2. -/
theorem addVertex_twice_inserts_twice :
    Inv (withVertices [QgsPoint.xy 0 0, QgsPoint.xy 1 1] 0) ∧
    (withVertices [QgsPoint.xy 0 0, QgsPoint.xy 1 1] 0).addVertex
      = some (withVertices [QgsPoint.xy 0 0, QgsPoint.xy 0 0, QgsPoint.xy 1 1] 1,
          [Event.verticesInserted 1 1, Event.vertexCountChanged,
           Event.currentCoordinateIndexChanged, Event.currentCoordinateChanged]) ∧
    (withVertices [QgsPoint.xy 0 0, QgsPoint.xy 0 0, QgsPoint.xy 1 1] 1).addVertex
      = some (withVertices [QgsPoint.xy 0 0, QgsPoint.xy 0 0, QgsPoint.xy 0 0, QgsPoint.xy 1 1] 2,
          [Event.verticesInserted 2 1, Event.vertexCountChanged,
           Event.currentCoordinateIndexChanged, Event.currentCoordinateChanged]) ∧
    withVertices [QgsPoint.xy 0 0, QgsPoint.xy 0 0, QgsPoint.xy 0 0, QgsPoint.xy 1 1] 2
      ≠ withVertices [QgsPoint.xy 0 0, QgsPoint.xy 0 0, QgsPoint.xy 1 1] 1 := by
  decide

/-- C5. On a model satisfying the invariants with current index `c`: when the list has
at least two vertices and its last two are equal, `addVertex()` returns the model as it
is and emits nothing; otherwise it returns the list with a copy of the current vertex
inserted right after position `c` (one vertex more, the new one at `c + 1`) and the
current index `c + 1`. -/
theorem addVertex_spec (s : RubberbandModel) (hinv : Inv s) :
    ((2 ≤ s.mPointList.length ∧
        s.mPointList.get? (s.mPointList.length - 1) = s.mPointList.get? (s.mPointList.length - 2)) →
      s.addVertex = some (s, [])) ∧
    (¬ (2 ≤ s.mPointList.length ∧
        s.mPointList.get? (s.mPointList.length - 1) = s.mPointList.get? (s.mPointList.length - 2)) →
      ∃ cur t es, s.currentCoordinate = some cur ∧ s.addVertex = some (t, es) ∧
        t = { s with
              mPointList := s.mPointList.take (s.mCurrentCoordinateIndex.toNat + 1)
                ++ [cur] ++ s.mPointList.drop (s.mCurrentCoordinateIndex.toNat + 1)
              mCurrentCoordinateIndex := s.mCurrentCoordinateIndex + 1 } ∧
        t.vertexCount = s.vertexCount + 1 ∧
        qAt t.mPointList (s.mCurrentCoordinateIndex + 1) = some cur ∧
        t.mCurrentCoordinateIndex = s.mCurrentCoordinateIndex + 1) := by
  obtain ⟨hn, h0, h1⟩ := hinv
  simp only [vertexCount] at hn h1
  constructor
  · intro hg
    have hguard := (lastTwoEqual_iff s.mPointList).mpr hg
    simp only [addVertex, hguard, if_true]
  · intro hg
    have hguard : lastTwoEqual s.mPointList = false := by
      cases hb : lastTwoEqual s.mPointList with
      | false => rfl
      | true => exact absurd ((lastTwoEqual_iff s.mPointList).mp hb) hg
    obtain ⟨cur, hcur, _⟩ := qAt_eq_some_of_lt s.mPointList s.mCurrentCoordinateIndex h0 h1
    have hidx : (s.mCurrentCoordinateIndex + 1).toNat = s.mCurrentCoordinateIndex.toNat + 1 := by omega
    have hadd := addVertex_eq s cur hcur hguard
    rw [hidx] at hadd
    refine ⟨cur, _, _, hcur, hadd, ?_, ?_, ?_, rfl⟩
    · simp
    · simp only [vertexCount, List.length_append, List.length_take, List.length_cons,
        List.length_drop]
      omega
    · have hle : s.mCurrentCoordinateIndex.toNat + 1 ≤ s.mPointList.length := by omega
      have htake : (s.mPointList.take (s.mCurrentCoordinateIndex.toNat + 1)).length
          = s.mCurrentCoordinateIndex.toNat + 1 := by
        simp only [List.length_take]
        omega
      have h01 : 0 ≤ s.mCurrentCoordinateIndex + 1 := by omega
      simp only [qAt, if_pos h01, hidx]
      rw [List.get?_eq_getElem?, List.getElem?_append_right (by omega), htake]
      simp

theorem addVertex_spec_witness :
    Inv (withVertices [QgsPoint.origin, QgsPoint.origin] 1) ∧
    (withVertices [QgsPoint.origin, QgsPoint.origin] 1).addVertex
      = some (withVertices [QgsPoint.origin, QgsPoint.origin] 1, []) ∧
    Inv (fresh 0) ∧
    ∃ t es, (fresh 0).addVertex = some (t, es) ∧ t.vertexCount = (fresh 0).vertexCount + 1 ∧
      t.mCurrentCoordinateIndex = (fresh 0).mCurrentCoordinateIndex + 1 :=
  ⟨by decide,
   (addVertex_spec (withVertices [QgsPoint.origin, QgsPoint.origin] 1) (by decide)).1 (by decide),
   by decide,
   let ⟨_, t, es, _, hrun, _, hcount, _, hidx⟩ := (addVertex_spec (fresh 0) (by decide)).2 (by decide)
   ⟨t, es, hrun, hcount, hidx⟩⟩

/-! ## C6 and C7: removeVertex and removeVertices -/

/-- C6. On a model with at least two vertices and current index `c` with
`1 <= c < vertexCount`, `removeVertex()` returns the list with exactly the element at
position `c` erased and the current index `c - 1`. -/
theorem removeVertex_spec (s : RubberbandModel) (hn : 2 ≤ s.vertexCount)
    (h1 : 1 ≤ s.mCurrentCoordinateIndex) (h2 : s.mCurrentCoordinateIndex < s.vertexCount) :
    s.removeVertex =
      some ({ s with
              mPointList := s.mPointList.eraseIdx s.mCurrentCoordinateIndex.toNat
              mCurrentCoordinateIndex := s.mCurrentCoordinateIndex - 1 },
            [Event.currentCoordinateIndexChanged, Event.currentCoordinateChanged,
             Event.verticesRemoved s.mCurrentCoordinateIndex 1, Event.vertexCountChanged]) := by
  have _ := hn
  simp only [vertexCount] at h2
  have hidx : (s.mCurrentCoordinateIndex + 1).toNat = s.mCurrentCoordinateIndex.toNat + 1 := by omega
  rw [removeVertex_eq s h1 h2, List.eraseIdx_eq_take_drop_succ, hidx]

theorem removeVertex_spec_witness :
    2 ≤ (withVertices [QgsPoint.xy 0 0, QgsPoint.xy 1 0, QgsPoint.xy 2 0] 2).vertexCount ∧
    (withVertices [QgsPoint.xy 0 0, QgsPoint.xy 1 0, QgsPoint.xy 2 0] 2).removeVertex
      = some (withVertices [QgsPoint.xy 0 0, QgsPoint.xy 1 0] 1,
          [Event.currentCoordinateIndexChanged, Event.currentCoordinateChanged,
           Event.verticesRemoved 2 1, Event.vertexCountChanged]) :=
  ⟨by decide,
   removeVertex_spec (withVertices [QgsPoint.xy 0 0, QgsPoint.xy 1 0, QgsPoint.xy 2 0] 2)
     (by decide) (by decide) (by decide)⟩

/-- C7. On a model satisfying the invariants with at least two vertices, and for
`index >= 0`, `count >= 0`, `index + count <= vertexCount`, `count < vertexCount`:
`removeVertices(index, count)` returns the list with the positions
`index .. index + count - 1` erased, emits `verticesRemoved(index, count)` and
`vertexCountChanged` first, and leaves the current index at the smaller of its old
value and the new last position. The index differs from the old one exactly when the
old one is not below the new vertex count, and exactly then `currentCoordinateChanged`
is among the signals. -/
theorem removeVertices_spec (s : RubberbandModel) (index count : Int) (hinv : Inv s)
    (hn : 2 ≤ s.vertexCount) (hi : 0 ≤ index) (hc : 0 ≤ count)
    (hle : index + count ≤ s.vertexCount) (hlt : count < s.vertexCount) :
    ∃ t rest, s.removeVertices index count
        = some (t, Event.verticesRemoved index count :: Event.vertexCountChanged :: rest) ∧
      t = { s with
            mPointList := s.mPointList.take index.toNat ++ s.mPointList.drop (index + count).toNat
            mCurrentCoordinateIndex := min s.mCurrentCoordinateIndex (s.vertexCount - count - 1) } ∧
      t.vertexCount = s.vertexCount - count ∧
      t.mCurrentCoordinateIndex = min s.mCurrentCoordinateIndex (t.vertexCount - 1) ∧
      (t.mCurrentCoordinateIndex ≠ s.mCurrentCoordinateIndex ↔
        ¬ s.mCurrentCoordinateIndex < t.vertexCount) ∧
      (Event.currentCoordinateChanged ∈
          Event.verticesRemoved index count :: Event.vertexCountChanged :: rest ↔
        ¬ s.mCurrentCoordinateIndex < t.vertexCount) := by
  obtain ⟨_, h0, h1⟩ := hinv
  simp only [vertexCount] at hn hle hlt h1
  have hrem := removeVertices_eq s index count (by omega) hi hc hle
  have hlen : ((s.mPointList.take index.toNat ++ s.mPointList.drop (index + count).toNat).length : Int)
      = (s.mPointList.length : Int) - count := by
    simp only [List.length_append, List.length_take, List.length_drop]
    omega
  by_cases hcur : s.mCurrentCoordinateIndex ≥ (s.mPointList.length : Int) - count
  · rw [if_pos hcur] at hrem
    have hmin : min s.mCurrentCoordinateIndex ((s.mPointList.length : Int) - count - 1)
        = (s.mPointList.length : Int) - count - 1 := by omega
    refine ⟨_, _, hrem, ?_, ?_, ?_, ?_, ?_⟩
    · simp only [vertexCount, hmin]
    · simp only [vertexCount, hlen]
    · simp only [vertexCount, hlen]
      omega
    · simp only [vertexCount, hlen]
      omega
    · simp only [vertexCount, hlen]
      constructor
      · intro _
        omega
      · intro _
        simp
  · rw [if_neg hcur] at hrem
    have hmin : min s.mCurrentCoordinateIndex ((s.mPointList.length : Int) - count - 1)
        = s.mCurrentCoordinateIndex := by omega
    refine ⟨_, [], hrem, ?_, ?_, ?_, ?_, ?_⟩
    · simp only [vertexCount, hmin]
    · simp only [vertexCount, hlen]
    · simp only [vertexCount, hlen]
      omega
    · simp only [vertexCount, hlen]
      constructor
      · intro hne
        exact absurd rfl hne
      · intro hnot
        omega
    · simp only [vertexCount, hlen]
      constructor
      · intro hmem
        simp at hmem
      · intro hnot
        omega

theorem removeVertices_spec_witness :
    Inv (withVertices [QgsPoint.xy 0 0, QgsPoint.xy 1 0, QgsPoint.xy 2 0] 2) ∧
    ∃ t rest, (withVertices [QgsPoint.xy 0 0, QgsPoint.xy 1 0, QgsPoint.xy 2 0] 2).removeVertices 1 2
        = some (t, Event.verticesRemoved 1 2 :: Event.vertexCountChanged :: rest) ∧
      t.mPointList = [QgsPoint.xy 0 0] ∧ t.mCurrentCoordinateIndex = 0 :=
  ⟨by decide,
   let ⟨t, rest, hrun, ht, _⟩ :=
     removeVertices_spec (withVertices [QgsPoint.xy 0 0, QgsPoint.xy 1 0, QgsPoint.xy 2 0] 2) 1 2
       (by decide) (by decide) (by decide) (by decide) (by decide) (by decide)
   ⟨t, rest, hrun, by rw [ht]; decide, by rw [ht]; decide⟩⟩

/-! ## C8 and C9: the frozen flag -/

theorem setCurrentCoordinate_frozen (s : RubberbandModel) (p : QgsPoint) (hinv : Inv s)
    (hfrozen : s.mFrozen = true) : s.setCurrentCoordinate p = some (s, []) := by
  obtain ⟨hn, h0, h1⟩ := hinv
  simp only [vertexCount] at hn h1
  obtain ⟨cur, hcur, _⟩ := qAt_eq_some_of_lt s.mPointList s.mCurrentCoordinateIndex h0 h1
  have hlen : ¬ s.mPointList.length = 0 := by omega
  simp only [setCurrentCoordinate, if_neg hlen, hcur, hfrozen, if_true, ite_self]

theorem setCurrentCoordinate_unfrozen (s : RubberbandModel) (p : QgsPoint) (hinv : Inv s)
    (hfrozen : s.mFrozen = false) (hne : s.currentCoordinate ≠ some p) :
    s.setCurrentCoordinate p =
      some ({ s with mPointList := s.mPointList.set s.mCurrentCoordinateIndex.toNat p },
            [Event.currentCoordinateChanged, Event.vertexChanged s.mCurrentCoordinateIndex]) := by
  obtain ⟨hn, h0, h1⟩ := hinv
  simp only [vertexCount] at hn h1
  obtain ⟨cur, hcur, _⟩ := qAt_eq_some_of_lt s.mPointList s.mCurrentCoordinateIndex h0 h1
  have hlen : ¬ s.mPointList.length = 0 := by omega
  have hcp : ¬ cur = p := by
    intro h
    apply hne
    rw [currentCoordinate, hcur, h]
  have hrep : qReplace s.mPointList s.mCurrentCoordinateIndex p
      = some (s.mPointList.set s.mCurrentCoordinateIndex.toNat p) := by
    simp [qReplace, h0, h1]
  simp [setCurrentCoordinate, hlen, hcur, hcp, hfrozen, hrep]

/-- C8. On a model satisfying the invariants and for a point `p` other than the current
coordinate: while `frozen` is true, `setCurrentCoordinate(p)` returns the model as it
is and emits nothing; `setFrozen(false)` then clears the flag (emitting
`frozenChanged`), and the same `setCurrentCoordinate(p)` on the result stores `p` at
the current index, leaves the other vertices and the index as they were, and emits
`currentCoordinateChanged` followed by `vertexChanged(currentCoordinateIndex)`. -/
theorem setCurrentCoordinate_frozen_then_unfrozen (s : RubberbandModel) (p : QgsPoint)
    (hinv : Inv s) (hfrozen : s.mFrozen = true) (hne : s.currentCoordinate ≠ some p) :
    s.setCurrentCoordinate p = some (s, []) ∧
    s.setFrozen false = some ({ s with mFrozen := false }, [Event.frozenChanged]) ∧
    ({ s with mFrozen := false } : RubberbandModel).setCurrentCoordinate p =
      some ({ s with
              mFrozen := false
              mPointList := s.mPointList.set s.mCurrentCoordinateIndex.toNat p },
            [Event.currentCoordinateChanged, Event.vertexChanged s.mCurrentCoordinateIndex]) := by
  refine ⟨setCurrentCoordinate_frozen s p hinv hfrozen, ?_, ?_⟩
  · simp [setFrozen, hfrozen]
  · exact setCurrentCoordinate_unfrozen { s with mFrozen := false } p hinv rfl hne

theorem setCurrentCoordinate_frozen_then_unfrozen_witness :
    Inv ({ fresh 0 with mFrozen := true }) ∧
    ({ fresh 0 with mFrozen := true } : RubberbandModel).setCurrentCoordinate (QgsPoint.xy 3 4)
      = some ({ fresh 0 with mFrozen := true }, []) ∧
    ({ fresh 0 with mFrozen := true } : RubberbandModel).setFrozen false
      = some (fresh 0, [Event.frozenChanged]) ∧
    (fresh 0).setCurrentCoordinate (QgsPoint.xy 3 4)
      = some (withVertices [QgsPoint.xy 3 4] 0,
          [Event.currentCoordinateChanged, Event.vertexChanged 0]) :=
  ⟨by decide,
   setCurrentCoordinate_frozen_then_unfrozen { fresh 0 with mFrozen := true } (QgsPoint.xy 3 4)
     (by decide) rfl (by decide)⟩

/-- C9, as amended. While `frozen` is true, on a model satisfying the invariants,
`setCurrentCoordinate(p)` and `setMeasureValue(v)` return the model as it is and emit
nothing, for every point `p` and measure `v`; in particular the vertex stored at the
current index keeps its value. -/
theorem frozen_guards_current_coordinate (s : RubberbandModel) (p : QgsPoint) (v : Dbl)
    (hinv : Inv s) (hfrozen : s.mFrozen = true) :
    s.setCurrentCoordinate p = some (s, []) ∧ s.setMeasureValue v = some (s, []) := by
  refine ⟨setCurrentCoordinate_frozen s p hinv hfrozen, ?_⟩
  obtain ⟨hn, h0, h1⟩ := hinv
  simp only [vertexCount] at hn h1
  obtain ⟨cur, hcur, _⟩ := qAt_eq_some_of_lt s.mPointList s.mCurrentCoordinateIndex h0 h1
  unfold setMeasureValue
  cases hl : s.mLayer with
  | none => rfl
  | some layer =>
    simp only
    by_cases hm : layer.wkbHasM = true
    · by_cases hv : (!v.isnan) = true
      · rw [if_pos hm, if_pos hv]
        simp only [currentCoordinate, hcur]
        exact setCurrentCoordinate_frozen s _ ⟨by simp only [vertexCount]; omega, h0, h1⟩ hfrozen
      · rw [if_pos hm, if_neg hv]
    · rw [if_neg hm]

theorem frozen_guards_current_coordinate_witness :
    Inv ({ fresh 0 with mFrozen := true, mLayer := some ⟨1, GeometryType.LineGeometry, true⟩ }) ∧
    ({ fresh 0 with mFrozen := true, mLayer := some ⟨1, GeometryType.LineGeometry, true⟩ }
        : RubberbandModel).setCurrentCoordinate (QgsPoint.xy 3 4)
      = some ({ fresh 0 with mFrozen := true, mLayer := some ⟨1, GeometryType.LineGeometry, true⟩ }, []) ∧
    ({ fresh 0 with mFrozen := true, mLayer := some ⟨1, GeometryType.LineGeometry, true⟩ }
        : RubberbandModel).setMeasureValue (Dbl.num 7)
      = some ({ fresh 0 with mFrozen := true, mLayer := some ⟨1, GeometryType.LineGeometry, true⟩ }, []) :=
  ⟨by decide,
   frozen_guards_current_coordinate
     { fresh 0 with mFrozen := true, mLayer := some ⟨1, GeometryType.LineGeometry, true⟩ }
     (QgsPoint.xy 3 4) (Dbl.num 7) (by decide) rfl⟩

/-- C9, as stated, fails. On a frozen model holding the single vertex (0,0),
`setVertex(0, (3,4))` with 0 the current index stores (3,4) there and emits
`vertexChanged(0)`: `setVertex` does not read the frozen flag. -/
theorem setVertex_ignores_frozen :
    Inv ({ fresh 0 with mFrozen := true }) ∧
    ({ fresh 0 with mFrozen := true } : RubberbandModel).currentCoordinate = some QgsPoint.origin ∧
    ({ fresh 0 with mFrozen := true } : RubberbandModel).setVertex 0 (QgsPoint.xy 3 4)
      = some ({ fresh 0 with mFrozen := true, mPointList := [QgsPoint.xy 3 4] },
          [Event.vertexChanged 0]) ∧
    ({ fresh 0 with mFrozen := true, mPointList := [QgsPoint.xy 3 4] } : RubberbandModel).currentCoordinate
      ≠ some QgsPoint.origin := by
  decide

/-! ## C10: signals and changes -/

theorem andThen_eq_some (r : Outcome) (f : RubberbandModel → Outcome) (t : RubberbandModel)
    (es : List Event) (h : r.andThen f = some (t, es)) :
    ∃ u es1 es2, r = some (u, es1) ∧ f u = some (t, es2) ∧ es = es1 ++ es2 := by
  unfold Outcome.andThen at h
  split at h
  · cases h
  · rename_i u es1
    split at h
    · cases h
    · rename_i t2 es2 hf
      injection h with h
      injection h with h1 h2
      subst h1
      subst h2
      exact ⟨u, es1, es2, rfl, hf, rfl⟩

theorem qAt_set_self (l : List QgsPoint) (i : Int) (v : QgsPoint) (h0 : 0 ≤ i)
    (h1 : i < (l.length : Int)) : qAt (l.set i.toNat v) i = some v := by
  have hlt : i.toNat < l.length := by omega
  simp [qAt, h0, List.get?_eq_getElem?, hlt]

theorem ne_of_qAt_ne (l r : List QgsPoint) (i : Int) (h : qAt l i ≠ qAt r i) : l ≠ r := by
  intro hlr
  apply h
  rw [hlr]

theorem ne_of_length_ne (l r : List QgsPoint) (h : (l.length : Int) ≠ (r.length : Int)) : l ≠ r := by
  intro hlr
  apply h
  rw [hlr]

theorem insertLoop_shape (index : Int) (k : Nat) :
    ∀ s t : RubberbandModel, insertLoop s index k = some t →
      t.mPointList.length = s.mPointList.length + k ∧
      t.mCurrentCoordinateIndex = s.mCurrentCoordinateIndex := by
  induction k with
  | zero =>
    intro s t h
    simp only [insertLoop] at h
    injection h with h
    subst h
    exact ⟨rfl, rfl⟩
  | succ k ih =>
    intro s t h
    simp only [insertLoop] at h
    split at h
    · cases h
    · rename_i cur _
      split at h
      · cases h
      · rename_i l hl
        obtain ⟨h1, h2⟩ := ih _ t h
        simp only at h1 h2
        refine ⟨?_, h2⟩
        unfold qInsert at hl
        split at hl
        · rename_i hr
          injection hl with hl
          subst hl
          simp only [List.length_append, List.length_take, List.length_cons, List.length_drop] at h1
          omega
        · cases hl

theorem setCurrentCoordinate_shape (s t : RubberbandModel) (p : QgsPoint) (es : List Event)
    (h : s.setCurrentCoordinate p = some (t, es)) :
    (t = s ∧ es = []) ∨
    (∃ cur, qAt s.mPointList s.mCurrentCoordinateIndex = some cur ∧ cur ≠ p ∧
      t = { s with mPointList := s.mPointList.set s.mCurrentCoordinateIndex.toNat p } ∧
      es = [Event.currentCoordinateChanged, Event.vertexChanged s.mCurrentCoordinateIndex]) := by
  unfold setCurrentCoordinate at h
  split at h
  · injection h with h
    injection h with h1 h2
    exact Or.inl ⟨h1.symm, h2.symm⟩
  · split at h
    · cases h
    · rename_i cur hcur
      split at h
      · injection h with h
        injection h with h1 h2
        exact Or.inl ⟨h1.symm, h2.symm⟩
      · rename_i hne
        split at h
        · injection h with h
          injection h with h1 h2
          exact Or.inl ⟨h1.symm, h2.symm⟩
        · split at h
          · cases h
          · rename_i l hl
            unfold qReplace at hl
            split at hl
            · injection hl with hl
              subst hl
              injection h with h
              injection h with h1 h2
              exact Or.inr ⟨cur, hcur, hne, h1.symm, h2.symm⟩
            · cases hl

theorem removeVertices_shape (s t : RubberbandModel) (index count : Int) (es : List Event)
    (h : s.removeVertices index count = some (t, es)) :
    (t = s ∧ es = []) ∨
    (2 ≤ s.mPointList.length ∧ 0 ≤ index ∧ 0 ≤ count ∧ index + count ≤ (s.mPointList.length : Int)) := by
  by_cases hn : s.mPointList.length ≤ 1
  · simp only [removeVertices, if_pos hn] at h
    injection h with h
    injection h with h1 h2
    exact Or.inl ⟨h1.symm, h2.symm⟩
  · right
    simp only [removeVertices, if_neg hn] at h
    split at h
    · cases h
    · rename_i l hl
      obtain ⟨_, h0, hc, hle⟩ := qRemove_length _ _ _ _ hl
      exact ⟨by omega, h0, hc, hle⟩

theorem addVertex_shape (s t : RubberbandModel) (es : List Event)
    (h : s.addVertex = some (t, es)) :
    (t = s ∧ es = []) ∨
    (∃ cur, qAt s.mPointList s.mCurrentCoordinateIndex = some cur ∧
      t = { s with
            mPointList := s.mPointList.take (s.mCurrentCoordinateIndex + 1).toNat
              ++ cur :: s.mPointList.drop (s.mCurrentCoordinateIndex + 1).toNat
            mCurrentCoordinateIndex := s.mCurrentCoordinateIndex + 1 } ∧
      es = [Event.verticesInserted (s.mCurrentCoordinateIndex + 1) 1, Event.vertexCountChanged,
            Event.currentCoordinateIndexChanged, Event.currentCoordinateChanged]) := by
  by_cases hguard : lastTwoEqual s.mPointList = true
  · simp only [addVertex, hguard, if_true] at h
    injection h with h
    injection h with h1 h2
    exact Or.inl ⟨h1.symm, h2.symm⟩
  · have hg : lastTwoEqual s.mPointList = false := by simpa using hguard
    cases hcur : qAt s.mPointList s.mCurrentCoordinateIndex with
    | none =>
      have h1 : (1 : Int).toNat = 0 + 1 := rfl
      simp [addVertex, hg, insertVertices, h1, insertLoop, currentCoordinate, hcur,
        Outcome.andThen] at h
    | some cur =>
      rw [addVertex_eq s cur hcur hg] at h
      injection h with h
      injection h with h1 h2
      exact Or.inr ⟨cur, rfl, h1.symm, h2.symm⟩

theorem setVertex_announces (s t : RubberbandModel) (index : Int) (p : QgsPoint) (es : List Event)
    (h : s.setVertex index p = some (t, es)) : ∀ e ∈ es, s.announces t e := by
  unfold setVertex at h
  split at h
  · cases h
  · rename_i old hold
    split at h
    · rename_i hne
      split at h
      · cases h
      · rename_i l hl
        obtain ⟨h0, h1⟩ := qAt_range _ _ _ hold
        unfold qReplace at hl
        split at hl
        · injection hl with hl
          subst hl
          injection h with h
          injection h with h1 h2
          subst h1
          subst h2
          intro e he
          simp only [List.mem_singleton] at he
          subst he
          simp only [announces, hold, qAt_set_self _ _ _ h0 h1]
          intro hc
          injection hc with hc
          exact hne hc
        · cases hl
    · injection h with h
      injection h with h1 h2
      subst h2
      intro e he
      cases he

theorem insertVertices_announces (s t : RubberbandModel) (index count : Int) (es : List Event)
    (hcount : 1 ≤ count) (h : s.insertVertices index count = some (t, es)) :
    ∀ e ∈ es, s.announces t e := by
  unfold insertVertices at h
  split at h
  · cases h
  · rename_i u hu
    obtain ⟨hlen, _⟩ := insertLoop_shape _ _ _ _ hu
    injection h with h
    injection h with h1 h2
    subst h1
    subst h2
    have hne : (s.mPointList.length : Int) ≠ (u.mPointList.length : Int) := by omega
    intro e he
    simp only [List.mem_cons, List.mem_singleton, List.not_mem_nil, or_false] at he
    rcases he with rfl | rfl
    · exact ne_of_length_ne _ _ hne
    · exact hne

theorem removeVertices_announces (s t : RubberbandModel) (index count : Int) (es : List Event)
    (hcount : 1 ≤ count) (h : s.removeVertices index count = some (t, es)) :
    ∀ e ∈ es, s.announces t e := by
  rcases removeVertices_shape s t index count es h with ⟨_, h2⟩ | ⟨hn, h0, hc, hle⟩
  · subst h2
    intro e he
    cases he
  · rw [removeVertices_eq s index count hn h0 hc hle] at h
    have hlen : ((s.mPointList.take index.toNat ++ s.mPointList.drop (index + count).toNat).length : Int)
        = (s.mPointList.length : Int) - count := by
      simp only [List.length_append, List.length_take, List.length_drop]
      omega
    have hne : (s.mPointList.length : Int)
        ≠ ((s.mPointList.take index.toNat ++ s.mPointList.drop (index + count).toNat).length : Int) := by
      omega
    split at h
    · rename_i hcur
      injection h with h
      injection h with h1 h2
      subst h1
      subst h2
      intro e he
      simp only [List.mem_cons, List.mem_singleton, List.not_mem_nil, or_false] at he
      rcases he with rfl | rfl | rfl | rfl | rfl
      · exact ne_of_length_ne _ _ hne
      · exact hne
      · simp only [announces]
        omega
      · exact Or.inl (ne_of_length_ne _ _ hne)
      · exact Or.inl (ne_of_length_ne _ _ hne)
    · injection h with h
      injection h with h1 h2
      subst h1
      subst h2
      intro e he
      simp only [List.mem_cons, List.mem_singleton, List.not_mem_nil, or_false] at he
      rcases he with rfl | rfl
      · exact ne_of_length_ne _ _ hne
      · exact hne

theorem setCurrentCoordinateIndex_shape (s t : RubberbandModel) (i : Int) (es : List Event)
    (h : s.setCurrentCoordinateIndex i = some (t, es)) :
    (t = s ∧ es = [] ∧ i = s.mCurrentCoordinateIndex) ∨
    (i ≠ s.mCurrentCoordinateIndex ∧ t = { s with mCurrentCoordinateIndex := i } ∧
      es = [Event.currentCoordinateIndexChanged, Event.currentCoordinateChanged]) := by
  unfold setCurrentCoordinateIndex at h
  split at h
  · rename_i hi
    injection h with h
    injection h with h1 h2
    exact Or.inl ⟨h1.symm, h2.symm, hi⟩
  · rename_i hi
    injection h with h
    injection h with h1 h2
    exact Or.inr ⟨hi, h1.symm, h2.symm⟩

theorem setCurrentCoordinateIndex_announces (s t : RubberbandModel) (i : Int) (es : List Event)
    (h : s.setCurrentCoordinateIndex i = some (t, es)) : ∀ e ∈ es, s.announces t e := by
  rcases setCurrentCoordinateIndex_shape s t i es h with ⟨_, h2, _⟩ | ⟨hi, h1, h2⟩
  · subst h2
    intro e he
    cases he
  · subst h1
    subst h2
    intro e he
    simp only [List.mem_cons, List.mem_singleton, List.not_mem_nil, or_false] at he
    rcases he with rfl | rfl
    · exact fun hc => hi hc.symm
    · exact Or.inr (fun hc => hi hc.symm)

theorem setCurrentCoordinate_announces (s t : RubberbandModel) (p : QgsPoint) (es : List Event)
    (h : s.setCurrentCoordinate p = some (t, es)) : ∀ e ∈ es, s.announces t e := by
  rcases setCurrentCoordinate_shape s t p es h with ⟨_, h2⟩ | ⟨cur, hcur, hne, h1, h2⟩
  · subst h2
    intro e he
    cases he
  · subst h1
    subst h2
    obtain ⟨h0, h1⟩ := qAt_range _ _ _ hcur
    have hat : qAt s.mPointList s.mCurrentCoordinateIndex
        ≠ qAt (s.mPointList.set s.mCurrentCoordinateIndex.toNat p) s.mCurrentCoordinateIndex := by
      rw [hcur, qAt_set_self _ _ _ h0 h1]
      intro hc
      injection hc with hc
      exact hne hc
    intro e he
    simp only [List.mem_cons, List.mem_singleton, List.not_mem_nil, or_false] at he
    rcases he with rfl | rfl
    · exact Or.inl (ne_of_qAt_ne _ _ _ hat)
    · exact hat

theorem setMeasureValue_announces (s t : RubberbandModel) (v : Dbl) (es : List Event)
    (h : s.setMeasureValue v = some (t, es)) : ∀ e ∈ es, s.announces t e := by
  unfold setMeasureValue at h
  split at h
  · injection h with h
    injection h with h1 h2
    subst h2
    intro e he
    cases he
  · split at h
    · split at h
      · split at h
        · cases h
        · exact setCurrentCoordinate_announces s t _ es h
      · injection h with h
        injection h with h1 h2
        subst h2
        intro e he
        cases he
    · injection h with h
      injection h with h1 h2
      subst h2
      intro e he
      cases he

theorem qAt_take_succ_append (l rest : List QgsPoint) (c : Int) (h0 : 0 ≤ c)
    (h1 : c < (l.length : Int)) : qAt (l.take (c + 1).toNat ++ rest) c = qAt l c := by
  have hlt : c.toNat < (l.take (c + 1).toNat).length := by
    simp only [List.length_take]
    omega
  have hlt2 : c.toNat < (c + 1).toNat := by omega
  simp only [qAt, if_pos h0, List.get?_eq_getElem?, List.getElem?_append_left hlt,
    List.getElem?_take_of_lt hlt2]

theorem addVertex_announces (s t : RubberbandModel) (es : List Event)
    (h : s.addVertex = some (t, es)) : ∀ e ∈ es, s.announces t e := by
  rcases addVertex_shape s t es h with ⟨_, h2⟩ | ⟨cur, hcur, h1, h2⟩
  · subst h2
    intro e he
    cases he
  · subst h1
    subst h2
    obtain ⟨h0, h1⟩ := qAt_range _ _ _ hcur
    have hne : (s.mPointList.length : Int)
        ≠ ((s.mPointList.take (s.mCurrentCoordinateIndex + 1).toNat
            ++ cur :: s.mPointList.drop (s.mCurrentCoordinateIndex + 1).toNat).length : Int) := by
      simp only [List.length_append, List.length_take, List.length_cons, List.length_drop]
      omega
    intro e he
    simp only [List.mem_cons, List.mem_singleton, List.not_mem_nil, or_false] at he
    rcases he with rfl | rfl | rfl | rfl
    · exact ne_of_length_ne _ _ hne
    · exact hne
    · simp only [announces]
      omega
    · exact Or.inl (ne_of_length_ne _ _ hne)

theorem addVertexFromPoint_announces (s t : RubberbandModel) (p : QgsPoint) (es : List Event)
    (h : s.addVertexFromPoint p = some (t, es)) : ∀ e ∈ es, s.announces t e := by
  obtain ⟨u, es1, es2, hset, hadd, hes⟩ := andThen_eq_some _ _ _ _ h
  subst hes
  rcases setCurrentCoordinate_shape s u p es1 hset with ⟨hu, h2⟩ | ⟨cur, hcur, hne, hu, h2⟩
  · subst hu
    subst h2
    simpa using addVertex_announces u t es2 hadd
  · rcases addVertex_shape u t es2 hadd with ⟨ht, h3⟩ | ⟨cur2, _, ht, h3⟩
    · subst ht
      subst h3
      simpa using setCurrentCoordinate_announces s t p es1 hset
    · subst hu
      subst ht
      subst h2
      subst h3
      obtain ⟨h0, h1⟩ := qAt_range _ _ _ hcur
      have hsetlen : ((s.mPointList.set s.mCurrentCoordinateIndex.toNat p).length : Int)
          = (s.mPointList.length : Int) := by simp
      have hne2 : (s.mPointList.length : Int)
          ≠ (((s.mPointList.set s.mCurrentCoordinateIndex.toNat p).take
                (s.mCurrentCoordinateIndex + 1).toNat
              ++ cur2 :: (s.mPointList.set s.mCurrentCoordinateIndex.toNat p).drop
                (s.mCurrentCoordinateIndex + 1).toNat).length : Int) := by
        simp only [List.length_append, List.length_take, List.length_cons, List.length_drop,
          List.length_set]
        omega
      have hat : qAt s.mPointList s.mCurrentCoordinateIndex
          ≠ qAt ((s.mPointList.set s.mCurrentCoordinateIndex.toNat p).take
                (s.mCurrentCoordinateIndex + 1).toNat
              ++ cur2 :: (s.mPointList.set s.mCurrentCoordinateIndex.toNat p).drop
                (s.mCurrentCoordinateIndex + 1).toNat) s.mCurrentCoordinateIndex := by
        rw [qAt_take_succ_append _ _ _ h0 (by rw [hsetlen]; exact h1), hcur,
          qAt_set_self _ _ _ h0 h1]
        intro hc
        injection hc with hc
        exact hne hc
      intro e he
      simp only [List.mem_append, List.mem_cons, List.mem_singleton, List.not_mem_nil,
        or_false] at he
      rcases he with (rfl | rfl) | (rfl | rfl | rfl | rfl)
      · exact Or.inl (ne_of_length_ne _ _ hne2)
      · exact hat
      · exact ne_of_length_ne _ _ hne2
      · exact hne2
      · simp only [announces]
        omega
      · exact Or.inl (ne_of_length_ne _ _ hne2)

theorem removeVertex_announces (s t : RubberbandModel) (es : List Event)
    (h : s.removeVertex = some (t, es)) : ∀ e ∈ es, s.announces t e := by
  obtain ⟨u, es1, es2, hidx, hrem, hes⟩ := andThen_eq_some _ _ _ _ h
  subst hes
  rcases setCurrentCoordinateIndex_shape s u _ es1 hidx with ⟨_, _, hc⟩ | ⟨_, hu, h1⟩
  · omega
  · subst hu
    subst h1
    simp only at hrem
    rcases removeVertices_shape _ t _ _ es2 hrem with ⟨ht, h2⟩ | ⟨hn, hi0, _, hle⟩
    · subst ht
      subst h2
      intro e he
      simp only [List.mem_append, List.mem_cons, List.mem_singleton, List.not_mem_nil,
        or_false] at he
      rcases he with rfl | rfl
      · simp only [announces]
        omega
      · exact Or.inr (by simp only; omega)
    · simp only at hn hi0 hle
      rw [removeVertices_eq
        { s with mCurrentCoordinateIndex := s.mCurrentCoordinateIndex - 1 } _ _ hn hi0 (by omega) hle]
        at hrem
      simp only at hrem
      have hlen : ((s.mPointList.take (s.mCurrentCoordinateIndex - 1 + 1).toNat
            ++ s.mPointList.drop (s.mCurrentCoordinateIndex - 1 + 1 + 1).toNat).length : Int)
          = (s.mPointList.length : Int) - 1 := by
        simp only [List.length_append, List.length_take, List.length_drop]
        omega
      have hne : (s.mPointList.length : Int)
          ≠ ((s.mPointList.take (s.mCurrentCoordinateIndex - 1 + 1).toNat
            ++ s.mPointList.drop (s.mCurrentCoordinateIndex - 1 + 1 + 1).toNat).length : Int) := by
        omega
      split at hrem
      · rename_i hcur
        injection hrem with hrem
        injection hrem with ht h2
        subst ht
        subst h2
        intro e he
        simp only [List.mem_append, List.mem_cons, List.mem_singleton, List.not_mem_nil,
          or_false] at he
        rcases he with (rfl | rfl) | (rfl | rfl | rfl | rfl | rfl)
        · simp only [announces]
          omega
        · exact Or.inl (ne_of_length_ne _ _ hne)
        · exact ne_of_length_ne _ _ hne
        · exact hne
        · simp only [announces]
          omega
        · exact Or.inl (ne_of_length_ne _ _ hne)
        · exact Or.inl (ne_of_length_ne _ _ hne)
      · injection hrem with hrem
        injection hrem with ht h2
        subst ht
        subst h2
        intro e he
        simp only [List.mem_append, List.mem_cons, List.mem_singleton, List.not_mem_nil,
          or_false] at he
        rcases he with (rfl | rfl) | (rfl | rfl)
        · simp only [announces]
          omega
        · exact Or.inl (ne_of_length_ne _ _ hne)
        · exact ne_of_length_ne _ _ hne
        · exact hne

theorem setGeometryType_announces (s t : RubberbandModel) (g : GeometryType) (es : List Event)
    (h : s.setGeometryType g = some (t, es)) : ∀ e ∈ es, s.announces t e := by
  unfold setGeometryType at h
  split at h
  · injection h with h
    injection h with h1 h2
    subst h2
    intro e he
    cases he
  · rename_i hne
    injection h with h
    injection h with h1 h2
    subst h1
    subst h2
    intro e he
    simp only [List.mem_singleton] at he
    subst he
    exact hne

theorem setCrs_announces (s t : RubberbandModel) (crs : Crs) (es : List Event)
    (h : s.setCrs crs = some (t, es)) : ∀ e ∈ es, s.announces t e := by
  unfold setCrs at h
  split at h
  · injection h with h
    injection h with h1 h2
    subst h2
    intro e he
    cases he
  · rename_i hne
    injection h with h
    injection h with h1 h2
    subst h1
    subst h2
    intro e he
    simp only [List.mem_singleton] at he
    subst he
    exact fun hc => hne hc.symm

theorem setFrozen_announces (s t : RubberbandModel) (frozen : Bool) (es : List Event)
    (h : s.setFrozen frozen = some (t, es)) : ∀ e ∈ es, s.announces t e := by
  unfold setFrozen at h
  split at h
  · injection h with h
    injection h with h1 h2
    subst h2
    intro e he
    cases he
  · rename_i hne
    injection h with h
    injection h with h1 h2
    subst h1
    subst h2
    intro e he
    simp only [List.mem_singleton] at he
    subst he
    exact hne

theorem setGeometryType_shape (s t : RubberbandModel) (g : GeometryType) (es : List Event)
    (h : s.setGeometryType g = some (t, es)) :
    (t = s ∧ es = []) ∨
    (s.mGeometryType ≠ g ∧ t = { s with mGeometryType := g } ∧ es = [Event.geometryTypeChanged]) := by
  unfold setGeometryType at h
  split at h
  · injection h with h
    injection h with h1 h2
    exact Or.inl ⟨h1.symm, h2.symm⟩
  · rename_i hne
    injection h with h
    injection h with h1 h2
    exact Or.inr ⟨hne, h1.symm, h2.symm⟩

theorem setVectorLayer_announces (s t : RubberbandModel) (layer : Option QgsVectorLayer)
    (es : List Event) (h : s.setVectorLayer layer = some (t, es)) :
    ∀ e ∈ es, s.announces t e := by
  unfold setVectorLayer at h
  split at h
  · injection h with h
    injection h with h1 h2
    subst h2
    intro e he
    cases he
  · rename_i hne
    simp only at h
    obtain ⟨u, es1, es2, htyped, hlast, hes⟩ := andThen_eq_some _ _ _ _ h
    injection hlast with hlast
    injection hlast with hu h2
    subst hu
    subst h2
    subst hes
    cases layer with
    | none =>
      simp only at htyped
      injection htyped with htyped
      injection htyped with hu h1
      subst hu
      subst h1
      intro e he
      simp only [List.nil_append, List.mem_singleton] at he
      subst he
      exact fun hc => hne hc.symm
    | some lay =>
      simp only at htyped
      rcases setGeometryType_shape _ _ _ _ htyped with ⟨hu, h1⟩ | ⟨hg, hu, h1⟩
      · subst hu
        subst h1
        intro e he
        simp only [List.nil_append, List.mem_singleton] at he
        subst he
        exact fun hc => hne hc.symm
      · subst hu
        subst h1
        intro e he
        simp only [List.mem_append, List.mem_singleton] at he
        rcases he with rfl | rfl
        · exact hg
        · exact fun hc => hne hc.symm

theorem not_announces_self (s : RubberbandModel) (e : Event) : ¬ s.announces s e := by
  cases e <;> simp [announces]

/-- C10, as amended. For every mutating call other than `reset`, with `insertVertices`
and `removeVertices` taken with a count of at least one, and every model: each signal
the call emits announces a change that took place (the vertex at that index, the
vertex list, its length, the current index, the geometry type, the reference system,
the layer or the frozen flag differs between the model before and after); and a call
that returns the model as it was emits no signal. -/
theorem signals_announce_changes (op : Op) (s t : RubberbandModel) (es : List Event)
    (hop : op.suppresses) (hrun : op.run s = some (t, es)) :
    (∀ e ∈ es, s.announces t e) ∧ (t = s → es = []) := by
  have hall : ∀ e ∈ es, s.announces t e := by
    cases op with
    | setVertex index coordinate => exact setVertex_announces s t index coordinate es hrun
    | insertVertices index count => exact insertVertices_announces s t index count es hop hrun
    | removeVertices index count => exact removeVertices_announces s t index count es hop hrun
    | setCurrentCoordinateIndex index => exact setCurrentCoordinateIndex_announces s t index es hrun
    | setCurrentCoordinate coordinate => exact setCurrentCoordinate_announces s t coordinate es hrun
    | setMeasureValue v => exact setMeasureValue_announces s t v es hrun
    | addVertex => exact addVertex_announces s t es hrun
    | addVertexFromPoint point => exact addVertexFromPoint_announces s t point es hrun
    | removeVertex => exact removeVertex_announces s t es hrun
    | reset => exact absurd hop (by simp [Op.suppresses])
    | setGeometryType g => exact setGeometryType_announces s t g es hrun
    | setCrs crs => exact setCrs_announces s t crs es hrun
    | setVectorLayer layer => exact setVectorLayer_announces s t layer es hrun
    | setFrozen frozen => exact setFrozen_announces s t frozen es hrun
  refine ⟨hall, ?_⟩
  intro hts
  subst hts
  cases es with
  | nil => rfl
  | cons e rest => exact absurd (hall e (List.mem_cons_self e rest)) (not_announces_self t e)

theorem signals_announce_changes_witness :
    Op.suppresses (Op.addVertexFromPoint (QgsPoint.xy 3 4)) ∧
    (Op.addVertexFromPoint (QgsPoint.xy 3 4)).run (fresh 0)
      = some (withVertices [QgsPoint.xy 3 4, QgsPoint.xy 3 4] 1,
          [Event.currentCoordinateChanged, Event.vertexChanged 0,
           Event.verticesInserted 1 1, Event.vertexCountChanged,
           Event.currentCoordinateIndexChanged, Event.currentCoordinateChanged]) ∧
    ((∀ e ∈ [Event.currentCoordinateChanged, Event.vertexChanged 0,
           Event.verticesInserted 1 1, Event.vertexCountChanged,
           Event.currentCoordinateIndexChanged, Event.currentCoordinateChanged],
        (fresh 0).announces (withVertices [QgsPoint.xy 3 4, QgsPoint.xy 3 4] 1) e) ∧
      (withVertices [QgsPoint.xy 3 4, QgsPoint.xy 3 4] 1 = fresh 0 →
        [Event.currentCoordinateChanged, Event.vertexChanged 0,
           Event.verticesInserted 1 1, Event.vertexCountChanged,
           Event.currentCoordinateIndexChanged, Event.currentCoordinateChanged] = [])) :=
  ⟨by decide, by decide,
   signals_announce_changes (Op.addVertexFromPoint (QgsPoint.xy 3 4)) (fresh 0) _ _
     (by decide) (by decide)⟩

/-- C10, as stated, fails. On a freshly constructed model `reset()` returns the model
as it was and emits `frozenChanged`, and `insertVertices(0, 0)` returns it as it was
and emits `verticesInserted(0, 0)` and `vertexCountChanged`; on two vertices
`removeVertices(0, 0)` returns the model as it was and emits `verticesRemoved(0, 0)`
and `vertexCountChanged`. -/
theorem signals_without_change :
    Inv (fresh 0) ∧
    (fresh 0).reset = some (fresh 0, [Event.frozenChanged]) ∧
    (fresh 0).insertVertices 0 0
      = some (fresh 0, [Event.verticesInserted 0 0, Event.vertexCountChanged]) ∧
    Inv (withVertices [QgsPoint.xy 0 0, QgsPoint.xy 1 1] 0) ∧
    (withVertices [QgsPoint.xy 0 0, QgsPoint.xy 1 1] 0).removeVertices 0 0
      = some (withVertices [QgsPoint.xy 0 0, QgsPoint.xy 1 1] 0,
          [Event.verticesRemoved 0 0, Event.vertexCountChanged]) := by
  decide

/-! ## C11: writes of the stored value -/

/-- C11. On a model satisfying the invariants and for an index `i` inside the list,
whatever the frozen flag: `setVertex(i, vertices[i])` returns the model as it is and
emits nothing, and so does `setCurrentCoordinate(currentCoordinate())`. -/
theorem stored_value_writes_are_silent (s : RubberbandModel) (i : Int) (hinv : Inv s)
    (hi0 : 0 ≤ i) (hi1 : i < s.vertexCount) :
    ∃ v cur, qAt s.mPointList i = some v ∧ s.setVertex i v = some (s, []) ∧
      s.currentCoordinate = some cur ∧ s.setCurrentCoordinate cur = some (s, []) := by
  obtain ⟨hn, h0, h1⟩ := hinv
  simp only [vertexCount] at hn h1 hi1
  obtain ⟨v, hv, _⟩ := qAt_eq_some_of_lt s.mPointList i hi0 hi1
  obtain ⟨cur, hcur, _⟩ := qAt_eq_some_of_lt s.mPointList s.mCurrentCoordinateIndex h0 h1
  have hlen : ¬ s.mPointList.length = 0 := by omega
  refine ⟨v, cur, hv, ?_, hcur, ?_⟩
  · simp [setVertex, hv]
  · simp [setCurrentCoordinate, hlen, hcur]

theorem stored_value_writes_are_silent_witness :
    Inv ({ withVertices [QgsPoint.xy 0 0, QgsPoint.xy 1 1] 0 with mFrozen := true }) ∧
    ∃ v cur,
      qAt ({ withVertices [QgsPoint.xy 0 0, QgsPoint.xy 1 1] 0 with mFrozen := true }
        : RubberbandModel).mPointList 1 = some v ∧
      ({ withVertices [QgsPoint.xy 0 0, QgsPoint.xy 1 1] 0 with mFrozen := true }
        : RubberbandModel).setVertex 1 v
        = some ({ withVertices [QgsPoint.xy 0 0, QgsPoint.xy 1 1] 0 with mFrozen := true }, []) ∧
      ({ withVertices [QgsPoint.xy 0 0, QgsPoint.xy 1 1] 0 with mFrozen := true }
        : RubberbandModel).currentCoordinate = some cur ∧
      ({ withVertices [QgsPoint.xy 0 0, QgsPoint.xy 1 1] 0 with mFrozen := true }
        : RubberbandModel).setCurrentCoordinate cur
        = some ({ withVertices [QgsPoint.xy 0 0, QgsPoint.xy 1 1] 0 with mFrozen := true }, []) :=
  ⟨by decide,
   stored_value_writes_are_silent
     { withVertices [QgsPoint.xy 0 0, QgsPoint.xy 1 1] 0 with mFrozen := true } 1
     (by decide) (by decide) (by decide)⟩

/-! ## C12 and C13: pointSequence -/

theorem addMValue_x (p : QgsPoint) (v : Dbl) : (p.addMValue v).x = p.x := by
  unfold QgsPoint.addMValue
  split <;> rfl

theorem addMValue_y (p : QgsPoint) (v : Dbl) : (p.addMValue v).y = p.y := by
  unfold QgsPoint.addMValue
  split <;> rfl

theorem projectPoint_identity (newPoint : QgsPoint → WkbType → QgsPoint) (wkbType : WkbType)
    (pt : QgsPoint) :
    ∃ p2, projectPoint QgsCoordinateTransform.identity newPoint wkbType pt = some p2 ∧
      p2.x = pt.x ∧ p2.y = pt.y := by
  unfold projectPoint
  simp only [QgsCoordinateTransform.identity]
  by_cases hm : (pt.hasM && wkbType.hasM) = true <;>
    by_cases hz : (pt.hasZ && wkbType.hasZ) = true <;>
    simp only [hm, hz, if_true, if_false] <;>
    exact ⟨_, rfl, by simp [addMValue_x, QgsPoint.setX, QgsPoint.setY],
      by simp [addMValue_y, QgsPoint.setX, QgsPoint.setY]⟩

theorem projectAll_identity (newPoint : QgsPoint → WkbType → QgsPoint) (wkbType : WkbType)
    (l : List QgsPoint) :
    ∃ sequence, projectAll QgsCoordinateTransform.identity newPoint wkbType l = some sequence ∧
      sequence.length = l.length ∧
      sequence.map (fun p => (p.x, p.y)) = l.map (fun p => (p.x, p.y)) := by
  induction l with
  | nil => exact ⟨[], rfl, rfl, rfl⟩
  | cons pt rest ih =>
    obtain ⟨sequence, hseq, hlen, hmap⟩ := ih
    obtain ⟨p2, hp2, hx, hy⟩ := projectPoint_identity newPoint wkbType pt
    refine ⟨p2 :: sequence, ?_, ?_, ?_⟩
    · simp only [projectAll, hp2, hseq]
    · simp only [List.length_cons, hlen]
    · simp only [List.map_cons, hmap, hx, hy]

/-- C12. With the identity transform, for every model with `n` vertices, whatever
`SnappingUtils::newPoint` returns: `pointSequence` without closing returns `n` points
whose X and Y are those of the stored vertices in order; with closing it returns that
sequence with its first point appended once more when `n > 1`, and that sequence
itself when `n <= 1`. -/
theorem pointSequence_identity (newPoint : QgsPoint → WkbType → QgsPoint) (s : RubberbandModel)
    (wkbType : WkbType) :
    ∃ sequence,
      s.pointSequence QgsCoordinateTransform.identity newPoint wkbType false = some sequence ∧
      sequence.length = s.mPointList.length ∧
      sequence.map (fun p => (p.x, p.y)) = s.mPointList.map (fun p => (p.x, p.y)) ∧
      (1 < s.mPointList.length →
        ∃ first, sequence.head? = some first ∧
          s.pointSequence QgsCoordinateTransform.identity newPoint wkbType true
            = some (sequence ++ [first])) ∧
      (s.mPointList.length ≤ 1 →
        s.pointSequence QgsCoordinateTransform.identity newPoint wkbType true = some sequence) := by
  obtain ⟨sequence, hseq, hlen, hmap⟩ := projectAll_identity newPoint wkbType s.mPointList
  refine ⟨sequence, ?_, hlen, hmap, ?_, ?_⟩
  · simp [pointSequence, hseq]
  · intro hn
    cases sequence with
    | nil =>
      simp only [List.length_nil] at hlen
      omega
    | cons first rest =>
      refine ⟨first, rfl, ?_⟩
      have hrest : rest ≠ [] := by
        intro hnil
        subst hnil
        simp only [List.length_singleton] at hlen
        omega
      simp [pointSequence, hseq, hrest]
  · intro hn
    have hle : ¬ sequence.length > 1 := by omega
    simp [pointSequence, hseq, hle]

theorem pointSequence_identity_witness :
    ∃ sequence,
      (withVertices [QgsPoint.xy 0 0, QgsPoint.xy 1 0, QgsPoint.xy 1 1] 2).pointSequence
          QgsCoordinateTransform.identity SnappingUtils.newPoint ⟨false, false⟩ false
        = some sequence ∧
      sequence.length = 3 ∧
      ∃ first, sequence.head? = some first ∧
        (withVertices [QgsPoint.xy 0 0, QgsPoint.xy 1 0, QgsPoint.xy 1 1] 2).pointSequence
            QgsCoordinateTransform.identity SnappingUtils.newPoint ⟨false, false⟩ true
          = some (sequence ++ [first]) :=
  let ⟨sequence, hopen, hlen, _, hclosed, _⟩ :=
    pointSequence_identity SnappingUtils.newPoint
      (withVertices [QgsPoint.xy 0 0, QgsPoint.xy 1 0, QgsPoint.xy 1 1] 2) ⟨false, false⟩
  ⟨sequence, hopen, hlen, hclosed (by decide)⟩

/-- C12 on three points: (0,0), (1,0), (1,1) is returned with (0,0) appended when
closing is asked for, and as it is otherwise. -/
theorem pointSequence_three_points :
    (withVertices [QgsPoint.xy 0 0, QgsPoint.xy 1 0, QgsPoint.xy 1 1] 2).pointSequence
        QgsCoordinateTransform.identity SnappingUtils.newPoint ⟨false, false⟩ true
      = some [QgsPoint.xy 0 0, QgsPoint.xy 1 0, QgsPoint.xy 1 1, QgsPoint.xy 0 0] ∧
    (withVertices [QgsPoint.xy 0 0, QgsPoint.xy 1 0, QgsPoint.xy 1 1] 2).pointSequence
        QgsCoordinateTransform.identity SnappingUtils.newPoint ⟨false, false⟩ false
      = some [QgsPoint.xy 0 0, QgsPoint.xy 1 0, QgsPoint.xy 1 1] := by
  decide

/-- C13 at the failing input. For the vertex (1, 2) with Z = 5 and no M, and a target
type with Z and without M: whatever `SnappingUtils::newPoint` returns, the loop body
calls `addMValue` on it with the Z value 5; and with `newPoint` as the spec has it, the
point returned by `pointSequence` has M = 5, the Z of the vertex. -/
theorem pointSequence_writes_z_into_m :
    (∀ newPoint : QgsPoint → WkbType → QgsPoint,
      projectPoint QgsCoordinateTransform.identity newPoint ⟨true, false⟩
          ⟨Dbl.num 1, Dbl.num 2, Dbl.num 5, Dbl.nan, true, false⟩
        = some ((((newPoint ⟨Dbl.num 1, Dbl.num 2, Dbl.num 5, Dbl.nan, true, false⟩ ⟨true, false⟩).setX
            (Dbl.num 1)).setY (Dbl.num 2)).addMValue (Dbl.num 5))) ∧
    (withVertices [⟨Dbl.num 1, Dbl.num 2, Dbl.num 5, Dbl.nan, true, false⟩] 0).pointSequence
        QgsCoordinateTransform.identity SnappingUtils.newPoint ⟨true, false⟩ false
      = some [⟨Dbl.num 1, Dbl.num 2, Dbl.num 5, Dbl.num 5, true, true⟩] := by
  refine ⟨fun newPoint => rfl, by decide⟩

/-! ## C14: currentPoint -/

/-- C14. With the identity transform, on a model satisfying the invariants and for
every target type: `currentPoint` returns a point with the X and Y of the current
vertex, with Z exactly when the vertex and the target type both have Z, and then the Z
of the vertex, and with M exactly when both have M, and then the M of the vertex. -/
theorem currentPoint_identity (s : RubberbandModel) (wkbType : WkbType) (hinv : Inv s) :
    ∃ cur r, s.currentCoordinate = some cur ∧
      s.currentPoint QgsCoordinateTransform.identity wkbType = some r ∧
      r.x = cur.x ∧ r.y = cur.y ∧
      r.hasZ = (cur.hasZ && wkbType.hasZ) ∧ (r.hasZ = true → r.z = cur.z) ∧
      r.hasM = (cur.hasM && wkbType.hasM) ∧ (r.hasM = true → r.m = cur.m) := by
  obtain ⟨hn, h0, h1⟩ := hinv
  simp only [vertexCount] at hn h1
  obtain ⟨cur, hcur, _⟩ := qAt_eq_some_of_lt s.mPointList s.mCurrentCoordinateIndex h0 h1
  have hrun : s.currentPoint QgsCoordinateTransform.identity wkbType
      = some (if cur.hasM && wkbType.hasM then
          (if cur.hasZ && wkbType.hasZ then
            (QgsPoint.ofXY cur.x cur.y).addZValue (if cur.hasZ then cur.z else Dbl.num 0)
           else QgsPoint.ofXY cur.x cur.y).addMValue (if cur.hasM then cur.m else Dbl.num 0)
        else
          (if cur.hasZ && wkbType.hasZ then
            (QgsPoint.ofXY cur.x cur.y).addZValue (if cur.hasZ then cur.z else Dbl.num 0)
           else QgsPoint.ofXY cur.x cur.y)) := by
    simp only [currentPoint, hcur, QgsCoordinateTransform.identity]
  refine ⟨cur, _, hcur, hrun, ?_⟩
  obtain ⟨x, y, z, m, hasZ, hasM⟩ := cur
  obtain ⟨tz, tm⟩ := wkbType
  cases hasZ <;> cases hasM <;> cases tz <;> cases tm <;>
    simp [QgsPoint.ofXY, QgsPoint.addZValue, QgsPoint.addMValue]

theorem currentPoint_identity_witness :
    Inv (withVertices [⟨Dbl.num 1, Dbl.num 2, Dbl.num 5, Dbl.num 7, true, true⟩] 0) ∧
    ∃ cur r,
      (withVertices [⟨Dbl.num 1, Dbl.num 2, Dbl.num 5, Dbl.num 7, true, true⟩] 0).currentCoordinate
        = some cur ∧
      (withVertices [⟨Dbl.num 1, Dbl.num 2, Dbl.num 5, Dbl.num 7, true, true⟩] 0).currentPoint
        QgsCoordinateTransform.identity ⟨true, false⟩ = some r ∧
      r.x = cur.x ∧ r.y = cur.y ∧
      r.hasZ = (cur.hasZ && true) ∧ (r.hasZ = true → r.z = cur.z) ∧
      r.hasM = (cur.hasM && false) ∧ (r.hasM = true → r.m = cur.m) :=
  ⟨by decide,
   currentPoint_identity (withVertices [⟨Dbl.num 1, Dbl.num 2, Dbl.num 5, Dbl.num 7, true, true⟩] 0)
     ⟨true, false⟩ (by decide)⟩

/-! ## C15: setMeasureValue -/

/-- C15. For every model, `setMeasureValue(v)` returns the model as it is and emits
nothing (so that `measureValue()` reads what it read before) whenever `v` is NaN, or no
layer is set, or the layer's type has no M. -/
theorem setMeasureValue_ignored (s : RubberbandModel) (v : Dbl)
    (h : v.isnan = true ∨ s.mLayer = none ∨
      ∃ layer, s.mLayer = some layer ∧ layer.wkbHasM = false) :
    s.setMeasureValue v = some (s, []) ∧
    ∀ t es, s.setMeasureValue v = some (t, es) → t.measureValue = s.measureValue := by
  have hrun : s.setMeasureValue v = some (s, []) := by
    unfold setMeasureValue
    cases hl : s.mLayer with
    | none => rfl
    | some layer =>
      simp only
      by_cases hm : layer.wkbHasM = true
      · rcases h with hv | hnone | ⟨lay, hlay, hno⟩
        · simp [hm, hv]
        · rw [hl] at hnone
          cases hnone
        · rw [hl] at hlay
          injection hlay with hlay
          rw [hlay, hno] at hm
          cases hm
      · rw [if_neg hm]
  refine ⟨hrun, ?_⟩
  intro t es ht
  rw [hrun] at ht
  injection ht with ht
  injection ht with ht _
  rw [← ht]

theorem setMeasureValue_ignored_witness :
    (Dbl.nan.isnan = true ∨
      ({ fresh 0 with mLayer := some ⟨1, GeometryType.LineGeometry, true⟩ } : RubberbandModel).mLayer
        = none ∨
      ∃ layer,
        ({ fresh 0 with mLayer := some ⟨1, GeometryType.LineGeometry, true⟩ } : RubberbandModel).mLayer
          = some layer ∧ layer.wkbHasM = false) ∧
    ({ fresh 0 with mLayer := some ⟨1, GeometryType.LineGeometry, true⟩ }
        : RubberbandModel).setMeasureValue Dbl.nan
      = some ({ fresh 0 with mLayer := some ⟨1, GeometryType.LineGeometry, true⟩ }, []) :=
  ⟨Or.inl rfl,
   (setMeasureValue_ignored { fresh 0 with mLayer := some ⟨1, GeometryType.LineGeometry, true⟩ }
     Dbl.nan (Or.inl rfl)).1⟩

/-! ## C16 to C19: setDataFromGeometry -/

/-- C16. For every model and every geometry whose type differs from the model's
geometry type, `setDataFromGeometry` returns the model as it is and emits nothing,
whatever the transform. -/
theorem setDataFromGeometry_mismatch (transform : QgsGeometry → QgsGeometry)
    (s : RubberbandModel) (geometry : QgsGeometry) (h : geometry.type ≠ s.mGeometryType) :
    s.setDataFromGeometry transform geometry = some (s, []) := by
  simp only [setDataFromGeometry, if_pos h]

theorem setDataFromGeometry_mismatch_witness :
    GeometryType.PolygonGeometry ≠ (fresh 0).mGeometryType ∧
    (fresh 0).setDataFromGeometry id
        ⟨GeometryType.PolygonGeometry, some [[[QgsPoint.xy 0 0, QgsPoint.xy 1 0, QgsPoint.xy 0 0]]]⟩
      = some (fresh 0, []) :=
  ⟨by decide,
   setDataFromGeometry_mismatch id (fresh 0)
     ⟨GeometryType.PolygonGeometry, some [[[QgsPoint.xy 0 0, QgsPoint.xy 1 0, QgsPoint.xy 0 0]]]⟩
     (by decide)⟩

theorem ingest_ring (polygon : Bool) (qs : List QgsPoint) :
    ∀ vertex : Int, (polygon = false ∨ 1 ≤ vertex) →
      ingest polygon (ringVertices 0 0 vertex qs) = qs := by
  induction qs with
  | nil => intro _ _; rfl
  | cons q rest ih =>
    intro vertex hv
    have hskip : ¬ (polygon = true ∧ vertex = 0) := by
      rintro ⟨hp, h0⟩
      rcases hv with hf | h1
      · rw [hf] at hp
        cases hp
      · omega
    have hstop : ¬ ((0 : Int) > 1 ∨ (0 : Int) > 0) := by omega
    simp only [ringVertices, ingest, if_neg hstop, if_neg hskip]
    rw [ih (vertex + 1) (by rcases hv with hf | h1; exact Or.inl hf; exact Or.inr (by omega))]

/-- C17. With the identity transform: on a model whose geometry type is Polygon, a
polygon of one part and one ring `q0, q1, ..., qk` replaces the vertices by
`q1, ..., qk`, sets the current index to `k - 1` and emits `verticesInserted(0, k)`
then `vertexCountChanged`; on a model whose geometry type is Line, a line of one part
replaces the vertices by all vertices of the line, in order, with the index on the
last one. -/
theorem setDataFromGeometry_single (s u : RubberbandModel) (q0 : QgsPoint) (qs : List QgsPoint)
    (hs : s.mGeometryType = GeometryType.PolygonGeometry)
    (hu : u.mGeometryType = GeometryType.LineGeometry) (hk : 1 ≤ qs.length) :
    s.setDataFromGeometry id ⟨GeometryType.PolygonGeometry, some [[q0 :: qs]]⟩
      = some ({ s with mPointList := qs, mCurrentCoordinateIndex := (qs.length : Int) - 1 },
          [Event.verticesInserted 0 (qs.length : Int), Event.vertexCountChanged]) ∧
    u.setDataFromGeometry id ⟨GeometryType.LineGeometry, some [[qs]]⟩
      = some ({ u with mPointList := qs, mCurrentCoordinateIndex := (qs.length : Int) - 1 },
          [Event.verticesInserted 0 (qs.length : Int), Event.vertexCountChanged]) ∧
    0 ≤ (qs.length : Int) - 1 ∧ (qs.length : Int) - 1 < (qs.length : Int) := by
  have hpoly : ingest true (geometryVertices 0 [[q0 :: qs]]) = qs := by
    have hstop : ¬ ((0 : Int) > 1 ∨ (0 : Int) > 0) := by omega
    have hflat : geometryVertices 0 [[q0 :: qs]]
        = ({ part := 0, ring := 0, vertex := 0 }, q0) :: ringVertices 0 0 (0 + 1) qs := by
      simp [geometryVertices, partVertices, ringVertices]
    rw [hflat]
    simp only [ingest, if_neg hstop, and_self, if_true]
    exact ingest_ring true qs (0 + 1) (Or.inr (by omega))
  have hline : ingest false (geometryVertices 0 [[qs]]) = qs := by
    have hflat : geometryVertices 0 [[qs]] = ringVertices 0 0 0 qs := by
      simp [geometryVertices, partVertices]
    rw [hflat]
    exact ingest_ring false qs 0 (Or.inl rfl)
  refine ⟨?_, ?_, by omega, by omega⟩
  · simp [setDataFromGeometry, hs, hpoly]
  · simp [setDataFromGeometry, hu, hline]

theorem setDataFromGeometry_single_witness :
    ({ fresh 0 with mGeometryType := GeometryType.PolygonGeometry } : RubberbandModel).mGeometryType
      = GeometryType.PolygonGeometry ∧
    (fresh 0).mGeometryType = GeometryType.LineGeometry ∧
    ({ fresh 0 with mGeometryType := GeometryType.PolygonGeometry } : RubberbandModel).setDataFromGeometry
        id ⟨GeometryType.PolygonGeometry,
          some [[[QgsPoint.xy 0 0, QgsPoint.xy 1 0, QgsPoint.xy 1 1, QgsPoint.xy 0 0]]]⟩
      = some ({ fresh 0 with
                mGeometryType := GeometryType.PolygonGeometry
                mPointList := [QgsPoint.xy 1 0, QgsPoint.xy 1 1, QgsPoint.xy 0 0]
                mCurrentCoordinateIndex := 2 },
          [Event.verticesInserted 0 3, Event.vertexCountChanged]) ∧
    (fresh 0).setDataFromGeometry id
        ⟨GeometryType.LineGeometry, some [[[QgsPoint.xy 1 0, QgsPoint.xy 1 1, QgsPoint.xy 0 0]]]⟩
      = some (withVertices [QgsPoint.xy 1 0, QgsPoint.xy 1 1, QgsPoint.xy 0 0] 2,
          [Event.verticesInserted 0 3, Event.vertexCountChanged]) :=
  have h := setDataFromGeometry_single
    { fresh 0 with mGeometryType := GeometryType.PolygonGeometry } (fresh 0) (QgsPoint.xy 0 0)
    [QgsPoint.xy 1 0, QgsPoint.xy 1 1, QgsPoint.xy 0 0] rfl rfl (by decide)
  ⟨rfl, rfl, h.1, h.2.1⟩

/-- C18 at the failing input. A line geometry of three parts, (0,0)-(1,0), (2,0)-(3,0)
and (4,0)-(5,0), is given to a freshly constructed model (geometry type Line). The
loop ends at the first vertex with `part > 1`, so the vertices of part 1 are stored
next to those of part 0: the model holds (0,0), (1,0), (2,0), (3,0), and (2,0) is a
vertex with part number 1. -/
theorem setDataFromGeometry_stores_second_part :
    (fresh 0).setDataFromGeometry id
        ⟨GeometryType.LineGeometry,
          some [[[QgsPoint.xy 0 0, QgsPoint.xy 1 0]], [[QgsPoint.xy 2 0, QgsPoint.xy 3 0]],
            [[QgsPoint.xy 4 0, QgsPoint.xy 5 0]]]⟩
      = some (withVertices [QgsPoint.xy 0 0, QgsPoint.xy 1 0, QgsPoint.xy 2 0, QgsPoint.xy 3 0] 3,
          [Event.verticesInserted 0 4, Event.vertexCountChanged]) ∧
    (({ part := 1, ring := 0, vertex := 0 } : QgsVertexId), QgsPoint.xy 2 0)
      ∈ geometryVertices 0
          [[[QgsPoint.xy 0 0, QgsPoint.xy 1 0]], [[QgsPoint.xy 2 0, QgsPoint.xy 3 0]],
            [[QgsPoint.xy 4 0, QgsPoint.xy 5 0]]] ∧
    QgsPoint.xy 2 0
      ∈ (withVertices [QgsPoint.xy 0 0, QgsPoint.xy 1 0, QgsPoint.xy 2 0, QgsPoint.xy 3 0] 3).mPointList := by
  decide

/-- C19 at the failing inputs. A line without vertices given to a freshly constructed
model, and a polygon whose only ring has a single vertex given to a polygon model,
both leave the vertex list empty and the current index at -1. -/
theorem setDataFromGeometry_empties_model :
    Inv (fresh 0) ∧
    (fresh 0).setDataFromGeometry id ⟨GeometryType.LineGeometry, some [[[]]]⟩
      = some (withVertices [] (-1), [Event.verticesInserted 0 0, Event.vertexCountChanged]) ∧
    ¬ Inv (withVertices [] (-1)) ∧
    Inv ({ fresh 0 with mGeometryType := GeometryType.PolygonGeometry }) ∧
    ({ fresh 0 with mGeometryType := GeometryType.PolygonGeometry } : RubberbandModel).setDataFromGeometry
        id ⟨GeometryType.PolygonGeometry, some [[[QgsPoint.xy 0 0]]]⟩
      = some ({ fresh 0 with
                mGeometryType := GeometryType.PolygonGeometry
                mPointList := []
                mCurrentCoordinateIndex := -1 },
          [Event.verticesInserted 0 0, Event.vertexCountChanged]) ∧
    ¬ Inv ({ fresh 0 with
              mGeometryType := GeometryType.PolygonGeometry
              mPointList := []
              mCurrentCoordinateIndex := -1 }) := by
  decide

/-! ## C20: reset -/

/-- C20. On every model satisfying the invariants, frozen or not, `reset()` returns a
model with exactly one vertex, current index 0 and `frozen` false, whose geometry
type, reference system and layer are those before the call. -/
theorem reset_spec (s : RubberbandModel) (hinv : Inv s) :
    ∃ t es, s.reset = some (t, es) ∧ t.vertexCount = 1 ∧ t.mCurrentCoordinateIndex = 0 ∧
      t.mFrozen = false ∧ t.mGeometryType = s.mGeometryType ∧ t.mCrs = s.mCrs ∧
      t.mLayer = s.mLayer := by
  obtain ⟨hn, h0, h1⟩ := hinv
  simp only [vertexCount] at hn h1
  refine ⟨_, _, reset_eq s h0 h1, ?_, rfl, rfl, rfl, rfl, rfl⟩
  simp only [vertexCount, List.length_drop]
  omega

theorem reset_spec_witness :
    Inv ({ withVertices [QgsPoint.xy 0 0, QgsPoint.xy 1 0, QgsPoint.xy 1 1] 1 with mFrozen := true }) ∧
    ∃ t es,
      ({ withVertices [QgsPoint.xy 0 0, QgsPoint.xy 1 0, QgsPoint.xy 1 1] 1 with mFrozen := true }
        : RubberbandModel).reset = some (t, es) ∧
      t.vertexCount = 1 ∧ t.mCurrentCoordinateIndex = 0 ∧ t.mFrozen = false :=
  ⟨by decide,
   let ⟨t, es, hrun, hcount, hidx, hfrozen, _⟩ :=
     reset_spec { withVertices [QgsPoint.xy 0 0, QgsPoint.xy 1 0, QgsPoint.xy 1 1] 1 with mFrozen := true }
       (by decide)
   ⟨t, es, hrun, hcount, hidx, hfrozen⟩⟩

end RubberbandModel

end QField
